import Mathlib

set_option maxRecDepth 100000

/-
Shallow embedding of the slugify library (src/slugify.c, src/slugify.h).

Inputs and outputs are byte lists (each byte a Nat below 256); a C string is
modelled as the list of its bytes before the terminating NUL.  Transliteration
replacement strings are likewise modelled as byte lists, so the table below is
the C transliteration_table with every replacement string spelled out as ASCII
byte values.  Error codes are the numeric constants of slugify.h.
-/

/- Error codes from src/slugify.h. -/

def SLUGIFY_SUCCESS : Nat := 0

def SLUGIFY_ERROR_BUFFER : Nat := 1

def SLUGIFY_ERROR_INVALID : Nat := 2

def SLUGIFY_ERROR_EMPTY : Nat := 3

def SLUGIFY_ERROR_MEMORY : Nat := 4

/- Conversion options (slugify_options_t): separator is a byte value. -/

structure slugify_options_t where
  preserve_case : Bool
  separator : Nat
  max_length : Nat
deriving Repr, DecidableEq

def slugify_default_options : slugify_options_t :=
  { preserve_case := false, separator := 45, max_length := 0 }

/- C locale ctype.h predicates, restricted to the byte range they are called on. -/

def c_isalnum (c : Nat) : Bool :=
  decide ((48 ≤ c ∧ c ≤ 57) ∨ (65 ≤ c ∧ c ≤ 90) ∨ (97 ≤ c ∧ c ≤ 122))

def c_isspace (c : Nat) : Bool :=
  decide ((9 ≤ c ∧ c ≤ 13) ∨ c = 32)

def c_ispunct (c : Nat) : Bool :=
  decide ((33 ≤ c ∧ c ≤ 47) ∨ (58 ≤ c ∧ c ≤ 64) ∨ (91 ≤ c ∧ c ≤ 96) ∨ (123 ≤ c ∧ c ≤ 126))

def c_tolower (c : Nat) : Nat :=
  if 65 ≤ c ∧ c ≤ 90 then c + 32 else c

/- utf8_char_length: length of a UTF-8 sequence inferred from its leading byte;
   bytes matching no valid pattern are treated as single bytes. -/

def utf8_char_length (c : Nat) : Nat :=
  if c < 0x80 then 1
  else if c &&& 0xE0 == 0xC0 then 2
  else if c &&& 0xF0 == 0xE0 then 3
  else if c &&& 0xF8 == 0xF0 then 4
  else 1

/- is_overlong_encoding: a char_len-byte sequence must encode a code point that
   needs that many bytes. -/

def is_overlong_encoding (char_len codepoint : Nat) : Bool :=
  if char_len == 2 then decide (codepoint < 0x80)
  else if char_len == 3 then decide (codepoint < 0x800)
  else if char_len == 4 then decide (codepoint < 0x10000)
  else false

/- Continuation byte test: top two bits must be 10. -/

def utf8_cont (b : Nat) : Bool := b &&& 0xC0 == 0x80

/- The shared code-point checks of is_utf8_valid: Unicode range, UTF-16
   surrogates, noncharacters. -/

def utf8_range_checks (codepoint : Nat) : Bool :=
  !(decide (codepoint > 0x10FFFF)) &&
  !(decide (0xD800 ≤ codepoint ∧ codepoint ≤ 0xDFFF)) &&
  !(decide (0xFDD0 ≤ codepoint ∧ codepoint ≤ 0xFDEF)) &&
  !(codepoint &&& 0xFFFE == 0xFFFE)

def utf8_checks (char_len codepoint : Nat) : Bool :=
  !(is_overlong_encoding char_len codepoint) && utf8_range_checks codepoint

/- The validity test of is_utf8_valid for the single code point at the head of
   the remaining input: the truncation check (i + char_len > len) comes first,
   then continuation-byte checks, the decoded code point's overlong check and
   the range checks, exactly as in the C loop body.  Continuation bytes are
   read with getD; the truncation guard fails first whenever they are missing. -/

def utf8_head_valid (c : Nat) (r : List Nat) : Bool :=
  if 1 + r.length < utf8_char_length c then false
  else if c < 0x80 then utf8_checks 1 c
  else if c &&& 0xE0 == 0xC0 then
    utf8_cont (r.getD 0 0) &&
    utf8_checks 2 (((c &&& 0x1F) <<< 6) ||| ((r.getD 0 0) &&& 0x3F))
  else if c &&& 0xF0 == 0xE0 then
    utf8_cont (r.getD 0 0) && utf8_cont (r.getD 1 0) &&
    utf8_checks 3 (((c &&& 0x0F) <<< 12) ||| (((r.getD 0 0) &&& 0x3F) <<< 6) |||
                   ((r.getD 1 0) &&& 0x3F))
  else if c &&& 0xF8 == 0xF0 then
    utf8_cont (r.getD 0 0) && utf8_cont (r.getD 1 0) && utf8_cont (r.getD 2 0) &&
    utf8_checks 4 (((c &&& 0x07) <<< 18) ||| (((r.getD 0 0) &&& 0x3F) <<< 12) |||
                   (((r.getD 1 0) &&& 0x3F) <<< 6) ||| ((r.getD 2 0) &&& 0x3F))
  else utf8_checks 1 c

/- is_utf8_valid: the whole-input validation pass, advancing by
   utf8_char_length per code point.  The fuel argument makes the recursion
   structural; each step consumes at least one byte, so fuel = input length
   always suffices and the 0-fuel case is never reached by the wrapper. -/

def is_utf8_valid_core : Nat → List Nat → Bool
  | 0, _ => true
  | _ + 1, [] => true
  | fuel + 1, c :: r =>
    utf8_head_valid c r && is_utf8_valid_core fuel ((c :: r).drop (utf8_char_length c))

def is_utf8_valid (l : List Nat) : Bool := is_utf8_valid_core l.length l

/- utf8_decode: the trusted (unchecked) decoder used by slugify_length and
   slugify_ex.  Returns (codepoint, consumed); bytes that are missing from the
   list stand for the terminating NUL and read as 0. -/

def utf8_decode : List Nat → Nat × Nat
  | [] => (0, 1)
  | c :: r =>
    if c < 0x80 then (c, 1)
    else if c &&& 0xE0 == 0xC0 then
      (((c &&& 0x1F) <<< 6) ||| ((r.getD 0 0) &&& 0x3F), 2)
    else if c &&& 0xF0 == 0xE0 then
      (((c &&& 0x0F) <<< 12) ||| (((r.getD 0 0) &&& 0x3F) <<< 6) ||| ((r.getD 1 0) &&& 0x3F), 3)
    else if c &&& 0xF8 == 0xF0 then
      (((c &&& 0x07) <<< 18) ||| (((r.getD 0 0) &&& 0x3F) <<< 12) |||
       (((r.getD 1 0) &&& 0x3F) <<< 6) ||| ((r.getD 2 0) &&& 0x3F), 4)
    else (c, 1)

def transliteration_table : List (Nat × List Nat) := [
  (0x24, [100, 111, 108, 108, 97, 114]),
  (0x25, [112, 101, 114, 99, 101, 110, 116]),
  (0x26, [97, 110, 100]),
  (0x3C, [108, 101, 115, 115]),
  (0x3E, [103, 114, 101, 97, 116, 101, 114]),
  (0x7C, [111, 114]),
  (0xA2, [99, 101, 110, 116]),
  (0xA3, [112, 111, 117, 110, 100]),
  (0xA4, [99, 117, 114, 114, 101, 110, 99, 121]),
  (0xA5, [121, 101, 110]),
  (0xA9, [40, 99, 41]),
  (0xAA, [97]),
  (0xAE, [40, 114, 41]),
  (0xBA, [111]),
  (0xC0, [65]),
  (0xC1, [65]),
  (0xC2, [65]),
  (0xC3, [65]),
  (0xC4, [65]),
  (0xC5, [65]),
  (0xC6, [65, 69]),
  (0xC7, [67]),
  (0xC8, [69]),
  (0xC9, [69]),
  (0xCA, [69]),
  (0xCB, [69]),
  (0xCC, [73]),
  (0xCD, [73]),
  (0xCE, [73]),
  (0xCF, [73]),
  (0xD0, [68]),
  (0xD1, [78]),
  (0xD2, [79]),
  (0xD3, [79]),
  (0xD4, [79]),
  (0xD5, [79]),
  (0xD6, [79]),
  (0xD8, [79]),
  (0xD9, [85]),
  (0xDA, [85]),
  (0xDB, [85]),
  (0xDC, [85]),
  (0xDD, [89]),
  (0xDE, [84, 72]),
  (0xDF, [115, 115]),
  (0xE0, [97]),
  (0xE1, [97]),
  (0xE2, [97]),
  (0xE3, [97]),
  (0xE4, [97]),
  (0xE5, [97]),
  (0xE6, [97, 101]),
  (0xE7, [99]),
  (0xE8, [101]),
  (0xE9, [101]),
  (0xEA, [101]),
  (0xEB, [101]),
  (0xEC, [105]),
  (0xED, [105]),
  (0xEE, [105]),
  (0xEF, [105]),
  (0xF0, [100]),
  (0xF1, [110]),
  (0xF2, [111]),
  (0xF3, [111]),
  (0xF4, [111]),
  (0xF5, [111]),
  (0xF6, [111]),
  (0xF8, [111]),
  (0xF9, [117]),
  (0xFA, [117]),
  (0xFB, [117]),
  (0xFC, [117]),
  (0xFD, [121]),
  (0xFE, [116, 104]),
  (0xFF, [121]),
  (0x100, [65]),
  (0x101, [97]),
  (0x102, [65]),
  (0x103, [97]),
  (0x104, [65]),
  (0x105, [97]),
  (0x106, [67]),
  (0x107, [99]),
  (0x10C, [67]),
  (0x10D, [99]),
  (0x10E, [68]),
  (0x10F, [100]),
  (0x110, [68, 74]),
  (0x111, [100, 106]),
  (0x112, [69]),
  (0x113, [101]),
  (0x116, [69]),
  (0x117, [101]),
  (0x118, [101]),
  (0x119, [101]),
  (0x11A, [69]),
  (0x11B, [101]),
  (0x11E, [71]),
  (0x11F, [103]),
  (0x122, [71]),
  (0x123, [103]),
  (0x128, [73]),
  (0x129, [105]),
  (0x12A, [105]),
  (0x12B, [105]),
  (0x12E, [73]),
  (0x12F, [105]),
  (0x130, [73]),
  (0x131, [105]),
  (0x136, [107]),
  (0x137, [107]),
  (0x13B, [76]),
  (0x13C, [108]),
  (0x13D, [76]),
  (0x13E, [108]),
  (0x141, [76]),
  (0x142, [108]),
  (0x143, [78]),
  (0x144, [110]),
  (0x145, [78]),
  (0x146, [110]),
  (0x147, [78]),
  (0x148, [110]),
  (0x14C, [79]),
  (0x14D, [111]),
  (0x150, [79]),
  (0x151, [111]),
  (0x152, [79, 69]),
  (0x153, [111, 101]),
  (0x154, [82]),
  (0x155, [114]),
  (0x158, [82]),
  (0x159, [114]),
  (0x15A, [83]),
  (0x15B, [115]),
  (0x15E, [83]),
  (0x15F, [115]),
  (0x160, [83]),
  (0x161, [115]),
  (0x162, [84]),
  (0x163, [116]),
  (0x164, [84]),
  (0x165, [116]),
  (0x168, [85]),
  (0x169, [117]),
  (0x16A, [117]),
  (0x16B, [117]),
  (0x16E, [85]),
  (0x16F, [117]),
  (0x170, [85]),
  (0x171, [117]),
  (0x172, [85]),
  (0x173, [117]),
  (0x174, [87]),
  (0x175, [119]),
  (0x176, [89]),
  (0x177, [121]),
  (0x178, [89]),
  (0x179, [90]),
  (0x17A, [122]),
  (0x17B, [90]),
  (0x17C, [122]),
  (0x17D, [90]),
  (0x17E, [122]),
  (0x18F, [69]),
  (0x192, [102]),
  (0x1A0, [79]),
  (0x1A1, [111]),
  (0x1AF, [85]),
  (0x1B0, [117]),
  (0x1C8, [76, 74]),
  (0x1C9, [108, 106]),
  (0x1CB, [78, 74]),
  (0x1CC, [110, 106]),
  (0x218, [83]),
  (0x219, [115]),
  (0x21A, [84]),
  (0x21B, [116]),
  (0x259, [101]),
  (0x2DA, [111]),
  (0x386, [65]),
  (0x388, [69]),
  (0x389, [72]),
  (0x38A, [73]),
  (0x38C, [79]),
  (0x38E, [89]),
  (0x38F, [87]),
  (0x390, [105]),
  (0x391, [65]),
  (0x392, [66]),
  (0x393, [71]),
  (0x394, [68]),
  (0x395, [69]),
  (0x396, [90]),
  (0x397, [72]),
  (0x398, [56]),
  (0x399, [73]),
  (0x39A, [75]),
  (0x39B, [76]),
  (0x39C, [77]),
  (0x39D, [78]),
  (0x39E, [51]),
  (0x39F, [79]),
  (0x3A0, [80]),
  (0x3A1, [82]),
  (0x3A3, [83]),
  (0x3A4, [84]),
  (0x3A5, [89]),
  (0x3A6, [70]),
  (0x3A7, [88]),
  (0x3A8, [80, 83]),
  (0x3A9, [87]),
  (0x3AA, [73]),
  (0x3AB, [89]),
  (0x3AC, [97]),
  (0x3AD, [101]),
  (0x3AE, [104]),
  (0x3AF, [105]),
  (0x3B0, [121]),
  (0x3B1, [97]),
  (0x3B2, [98]),
  (0x3B3, [103]),
  (0x3B4, [100]),
  (0x3B5, [101]),
  (0x3B6, [122]),
  (0x3B7, [104]),
  (0x3B8, [56]),
  (0x3B9, [105]),
  (0x3BA, [107]),
  (0x3BB, [108]),
  (0x3BC, [109]),
  (0x3BD, [110]),
  (0x3BE, [51]),
  (0x3BF, [111]),
  (0x3C0, [112]),
  (0x3C1, [114]),
  (0x3C2, [115]),
  (0x3C3, [115]),
  (0x3C4, [116]),
  (0x3C5, [121]),
  (0x3C6, [102]),
  (0x3C7, [120]),
  (0x3C8, [112, 115]),
  (0x3C9, [119]),
  (0x3CA, [105]),
  (0x3CB, [121]),
  (0x3CC, [111]),
  (0x3CD, [121]),
  (0x3CE, [119]),
  (0x401, [89, 111]),
  (0x402, [68, 74]),
  (0x404, [89, 101]),
  (0x406, [73]),
  (0x407, [89, 105]),
  (0x408, [74]),
  (0x409, [76, 74]),
  (0x40A, [78, 74]),
  (0x40B, [67]),
  (0x40F, [68, 90]),
  (0x410, [65]),
  (0x411, [66]),
  (0x412, [86]),
  (0x413, [71]),
  (0x414, [68]),
  (0x415, [69]),
  (0x416, [90, 104]),
  (0x417, [90]),
  (0x418, [73]),
  (0x419, [74]),
  (0x41A, [75]),
  (0x41B, [76]),
  (0x41C, [77]),
  (0x41D, [78]),
  (0x41E, [79]),
  (0x41F, [80]),
  (0x420, [82]),
  (0x421, [83]),
  (0x422, [84]),
  (0x423, [85]),
  (0x424, [70]),
  (0x425, [72]),
  (0x426, [67]),
  (0x427, [67, 104]),
  (0x428, [83, 104]),
  (0x429, [83, 104]),
  (0x42A, [85]),
  (0x42B, [89]),
  (0x42C, []),
  (0x42D, [69]),
  (0x42E, [89, 117]),
  (0x42F, [89, 97]),
  (0x430, [97]),
  (0x431, [98]),
  (0x432, [118]),
  (0x433, [103]),
  (0x434, [100]),
  (0x435, [101]),
  (0x436, [122, 104]),
  (0x437, [122]),
  (0x438, [105]),
  (0x439, [106]),
  (0x43A, [107]),
  (0x43B, [108]),
  (0x43C, [109]),
  (0x43D, [110]),
  (0x43E, [111]),
  (0x43F, [112]),
  (0x440, [114]),
  (0x441, [115]),
  (0x442, [116]),
  (0x443, [117]),
  (0x444, [102]),
  (0x445, [104]),
  (0x446, [99]),
  (0x447, [99, 104]),
  (0x448, [115, 104]),
  (0x449, [115, 104]),
  (0x44A, [117]),
  (0x44B, [121]),
  (0x44C, []),
  (0x44D, [101]),
  (0x44E, [121, 117]),
  (0x44F, [121, 97]),
  (0x451, [121, 111]),
  (0x452, [100, 106]),
  (0x454, [121, 101]),
  (0x456, [105]),
  (0x457, [121, 105]),
  (0x458, [106]),
  (0x459, [108, 106]),
  (0x45A, [110, 106]),
  (0x45B, [99]),
  (0x45D, [117]),
  (0x45F, [100, 122]),
  (0x490, [71]),
  (0x491, [103]),
  (0x492, [71, 72]),
  (0x493, [103, 104]),
  (0x49A, [75, 72]),
  (0x49B, [107, 104]),
  (0x4A2, [78, 71]),
  (0x4A3, [110, 103]),
  (0x4AE, [85, 69]),
  (0x4AF, [117, 101]),
  (0x4B0, [85]),
  (0x4B1, [117]),
  (0x4BA, [72]),
  (0x4BB, [104]),
  (0x4D8, [65, 69]),
  (0x4D9, [97, 101]),
  (0x4E8, [79, 69]),
  (0x4E9, [111, 101]),
  (0x621, [97]),
  (0x622, [97, 97]),
  (0x623, [97]),
  (0x624, [117]),
  (0x625, [105]),
  (0x626, [101]),
  (0x627, [97]),
  (0x628, [98]),
  (0x629, [104]),
  (0x62A, [116]),
  (0x62B, [116, 104]),
  (0x62C, [106]),
  (0x62D, [104]),
  (0x62E, [107, 104]),
  (0x62F, [100]),
  (0x630, [116, 104]),
  (0x631, [114]),
  (0x632, [122]),
  (0x633, [115]),
  (0x634, [115, 104]),
  (0x635, [115]),
  (0x636, [100, 104]),
  (0x637, [116]),
  (0x638, [122]),
  (0x639, [97]),
  (0x63A, [103, 104]),
  (0x641, [102]),
  (0x642, [113]),
  (0x643, [107]),
  (0x644, [108]),
  (0x645, [109]),
  (0x646, [110]),
  (0x647, [104]),
  (0x648, [119]),
  (0x649, [97]),
  (0x64A, [121]),
  (0x64B, [97, 110]),
  (0x64C, [111, 110]),
  (0x64D, [101, 110]),
  (0x64E, [97]),
  (0x64F, [117]),
  (0x650, [101]),
  (0x651, []),
  (0x660, [48]),
  (0x661, [49]),
  (0x662, [50]),
  (0x663, [51]),
  (0x664, [52]),
  (0x665, [53]),
  (0x666, [54]),
  (0x667, [55]),
  (0x668, [56]),
  (0x669, [57]),
  (0x67E, [112]),
  (0x686, [99, 104]),
  (0x698, [122, 104]),
  (0x6A9, [107]),
  (0x6AF, [103]),
  (0x6CC, [121]),
  (0x6F0, [48]),
  (0x6F1, [49]),
  (0x6F2, [50]),
  (0x6F3, [51]),
  (0x6F4, [52]),
  (0x6F5, [53]),
  (0x6F6, [54]),
  (0x6F7, [55]),
  (0x6F8, [56]),
  (0x6F9, [57]),
  (0x10D0, [97]),
  (0x10D1, [98]),
  (0x10D2, [103]),
  (0x10D3, [100]),
  (0x10D4, [101]),
  (0x10D5, [118]),
  (0x10D6, [122]),
  (0x10D7, [116]),
  (0x10D8, [105]),
  (0x10D9, [107]),
  (0x10DA, [108]),
  (0x10DB, [109]),
  (0x10DC, [110]),
  (0x10DD, [111]),
  (0x10DE, [112]),
  (0x10DF, [122, 104]),
  (0x10E0, [114]),
  (0x10E1, [115]),
  (0x10E2, [116]),
  (0x10E3, [117]),
  (0x10E4, [102]),
  (0x10E5, [107]),
  (0x10E6, [103, 104]),
  (0x10E7, [113]),
  (0x10E8, [115, 104]),
  (0x10E9, [99, 104]),
  (0x10EA, [116, 115]),
  (0x10EB, [100, 122]),
  (0x10EC, [116, 115]),
  (0x10ED, [99, 104]),
  (0x10EE, [107, 104]),
  (0x10EF, [106]),
  (0x10F0, [104]),
  (0x1EA0, [65]),
  (0x1EA1, [97]),
  (0x1EA2, [65]),
  (0x1EA3, [97]),
  (0x1EA4, [65]),
  (0x1EA5, [97]),
  (0x1EA6, [65]),
  (0x1EA7, [97]),
  (0x1EA8, [65]),
  (0x1EA9, [97]),
  (0x1EAA, [65]),
  (0x1EAB, [97]),
  (0x1EAC, [65]),
  (0x1EAD, [97]),
  (0x1EAE, [65]),
  (0x1EAF, [97]),
  (0x1EB0, [65]),
  (0x1EB1, [97]),
  (0x1EB2, [65]),
  (0x1EB3, [97]),
  (0x1EB4, [65]),
  (0x1EB5, [97]),
  (0x1EB6, [65]),
  (0x1EB7, [97]),
  (0x1EB8, [69]),
  (0x1EB9, [101]),
  (0x1EBA, [69]),
  (0x1EBB, [101]),
  (0x1EBC, [69]),
  (0x1EBD, [101]),
  (0x1EBE, [69]),
  (0x1EBF, [101]),
  (0x1EC0, [69]),
  (0x1EC1, [101]),
  (0x1EC2, [69]),
  (0x1EC3, [101]),
  (0x1EC4, [69]),
  (0x1EC5, [101]),
  (0x1EC6, [69]),
  (0x1EC7, [101]),
  (0x1EC8, [73]),
  (0x1EC9, [105]),
  (0x1ECA, [73]),
  (0x1ECB, [105]),
  (0x1ECC, [79]),
  (0x1ECD, [111]),
  (0x1ECE, [79]),
  (0x1ECF, [111]),
  (0x1ED0, [79]),
  (0x1ED1, [111]),
  (0x1ED2, [79]),
  (0x1ED3, [111]),
  (0x1ED4, [79]),
  (0x1ED5, [111]),
  (0x1ED6, [79]),
  (0x1ED7, [111]),
  (0x1ED8, [79]),
  (0x1ED9, [111]),
  (0x1EDA, [79]),
  (0x1EDB, [111]),
  (0x1EDC, [79]),
  (0x1EDD, [111]),
  (0x1EDE, [79]),
  (0x1EDF, [111]),
  (0x1EE0, [79]),
  (0x1EE1, [111]),
  (0x1EE2, [79]),
  (0x1EE3, [111]),
  (0x1EE4, [85]),
  (0x1EE5, [117]),
  (0x1EE6, [85]),
  (0x1EE7, [117]),
  (0x1EE8, [85]),
  (0x1EE9, [117]),
  (0x1EEA, [85]),
  (0x1EEB, [117]),
  (0x1EEC, [85]),
  (0x1EED, [117]),
  (0x1EEE, [85]),
  (0x1EEF, [117]),
  (0x1EF0, [85]),
  (0x1EF1, [117]),
  (0x1EF2, [89]),
  (0x1EF3, [121]),
  (0x1EF4, [89]),
  (0x1EF5, [121]),
  (0x1EF6, [89]),
  (0x1EF7, [121]),
  (0x1EF8, [89]),
  (0x1EF9, [121]),
  (0x2013, [45]),
  (0x2018, [39]),
  (0x2019, [39]),
  (0x201C, [34]),
  (0x201D, [34]),
  (0x201E, [34]),
  (0x2020, [43]),
  (0x2022, [42]),
  (0x2026, [46, 46, 46]),
  (0x20A0, [101, 99, 117]),
  (0x20A2, [99, 114, 117, 122, 101, 105, 114, 111]),
  (0x20A3, [102, 114, 101, 110, 99, 104, 32, 102, 114, 97, 110, 99]),
  (0x20A4, [108, 105, 114, 97]),
  (0x20A5, [109, 105, 108, 108]),
  (0x20A6, [110, 97, 105, 114, 97]),
  (0x20A7, [112, 101, 115, 101, 116, 97]),
  (0x20A8, [114, 117, 112, 101, 101]),
  (0x20A9, [119, 111, 110]),
  (0x20AA, [110, 101, 119, 32, 115, 104, 101, 113, 117, 101, 108]),
  (0x20AB, [100, 111, 110, 103]),
  (0x20AC, [101, 117, 114, 111]),
  (0x20AD, [107, 105, 112]),
  (0x20AE, [116, 117, 103, 114, 105, 107]),
  (0x20AF, [100, 114, 97, 99, 104, 109, 97]),
  (0x20B0, [112, 101, 110, 110, 121]),
  (0x20B1, [112, 101, 115, 111]),
  (0x20B2, [103, 117, 97, 114, 97, 110, 105]),
  (0x20B3, [97, 117, 115, 116, 114, 97, 108]),
  (0x20B4, [104, 114, 121, 118, 110, 105, 97]),
  (0x20B5, [99, 101, 100, 105]),
  (0x20B8, [107, 97, 122, 97, 107, 104, 115, 116, 97, 110, 105, 32, 116, 101, 110, 103, 101]),
  (0x20B9, [105, 110, 100, 105, 97, 110, 32, 114, 117, 112, 101, 101]),
  (0x20BA, [116, 117, 114, 107, 105, 115, 104, 32, 108, 105, 114, 97]),
  (0x20BD, [114, 117, 115, 115, 105, 97, 110, 32, 114, 117, 98, 108, 101]),
  (0x20BF, [98, 105, 116, 99, 111, 105, 110]),
  (0x2120, [115, 109]),
  (0x2122, [116, 109]),
  (0x2202, [100]),
  (0x2206, [100, 101, 108, 116, 97]),
  (0x2211, [115, 117, 109]),
  (0x221E, [105, 110, 102, 105, 110, 105, 116, 121]),
  (0x2665, [108, 111, 118, 101]),
  (0x5143, [121, 117, 97, 110]),
  (0x5186, [121, 101, 110]),
  (0xFDFC, [114, 105, 97, 108]),
  (0xFDF5, [108, 97, 97]),
  (0xFDF7, [108, 97, 97]),
  (0xFDF9, [108, 97, 105]),
  (0xFDFB, [108, 97])
]

/- transliterate_char: the C binary search, with int indices lo, hi encoded as
   Nats lo and hi1 = hi + 1 (lo stays nonnegative, hi can only reach -1 when
   the loop exits), so lo <= hi reads lo < hi1 and mid = (lo+hi)>>1 reads
   (lo + hi1 - 1) / 2.  The fuel argument only bounds the iteration count:
   every step strictly shrinks the interval, so 1024 iterations are never
   exhausted on this 594-entry table. -/

def table_entry (i : Nat) : Nat × List Nat := transliteration_table.getD i (0, [])

def transliterate_search (cp : Nat) : Nat → Nat → Nat → Option (List Nat)
  | 0, _, _ => none
  | fuel + 1, lo, hi1 =>
    if lo < hi1 then
      if (table_entry ((lo + hi1 - 1) / 2)).1 == cp then some (table_entry ((lo + hi1 - 1) / 2)).2
      else if (table_entry ((lo + hi1 - 1) / 2)).1 < cp then
        transliterate_search cp fuel ((lo + hi1 - 1) / 2 + 1) hi1
      else transliterate_search cp fuel lo ((lo + hi1 - 1) / 2)
    else none

def transliterate_char (cp : Nat) : Option (List Nat) :=
  transliterate_search cp 1024 0 transliteration_table.length

/- Worst-case output cost of one decoded code point, as accumulated by
   slugify_length: ASCII alphanumerics cost 1, transliterations cost the
   replacement length, whitespace/punctuation costs 1 (a possible separator),
   preserved non-ASCII costs its encoded length, anything else costs 0. -/

def char_cost (opts : slugify_options_t) (codepoint consumed : Nat) : Nat :=
  if codepoint < 128 then
    if c_isalnum codepoint then 1
    else
      match transliterate_char codepoint with
      | some tr => tr.length
      | none => if c_isspace codepoint || c_ispunct codepoint then 1 else 0
  else if opts.preserve_case then consumed
  else
    match transliterate_char codepoint with
    | some tr => tr.length
    | none => 0

/- slugify_length without its final +1, walking the input with utf8_decode
   exactly as the C loop does (i advances by the consumed count).  The fuel
   argument makes the recursion structural; every step consumes at least one
   byte, so fuel = input length always suffices and the 0-fuel case is never
   reached by the wrappers below. -/

def slugify_length_core (opts : slugify_options_t) : Nat → List Nat → Nat
  | 0, _ => 0
  | _ + 1, [] => 0
  | fuel + 1, c :: r =>
    char_cost opts (utf8_decode (c :: r)).1 (utf8_decode (c :: r)).2 +
      slugify_length_core opts fuel ((c :: r).drop (utf8_decode (c :: r)).2)

def slugify_length (input : List Nat) (opts : slugify_options_t) : Nat :=
  slugify_length_core opts input.length input + 1

/- The inner write loop for a transliteration replacement: write each byte
   (case-folded unless preserve_case), breaking once max_length is reached. -/

def trans_append (opts : slugify_options_t) : List Nat → List Nat → List Nat
  | out, [] => out
  | out, b :: bs =>
    if opts.max_length > 0 &&
        decide (opts.max_length ≤ (out ++ [if opts.preserve_case then b else c_tolower b]).length)
    then out ++ [if opts.preserve_case then b else c_tolower b]
    else trans_append opts (out ++ [if opts.preserve_case then b else c_tolower b]) bs

/- One iteration of the slugify_ex scan body for a decoded code point.
   charBytes is the input bytes of the code point (for the preserve_case
   verbatim copy); the result is (some error, unchanged output) when a
   capacity check fails, else (none, extended output). -/

def slug_step (opts : slugify_options_t) (sz codepoint consumed : Nat)
    (charBytes out : List Nat) : Option Nat × List Nat :=
  if codepoint < 128 then
    if c_isalnum codepoint then
      if sz ≤ out.length + 1 then (some SLUGIFY_ERROR_BUFFER, out)
      else (none, out ++ [if opts.preserve_case then codepoint else c_tolower codepoint])
    else
      match transliterate_char codepoint with
      | some tr =>
        if sz ≤ out.length + tr.length then (some SLUGIFY_ERROR_BUFFER, out)
        else (none, trans_append opts out tr)
      | none =>
        if c_isspace codepoint || codepoint == 45 || codepoint == 95 || c_ispunct codepoint then
          if 0 < out.length ∧ out.getLast? ≠ some opts.separator then
            if sz ≤ out.length + 1 then (some SLUGIFY_ERROR_BUFFER, out)
            else (none, out ++ [opts.separator])
          else (none, out)
        else (none, out)
  else if opts.preserve_case then
    if sz ≤ out.length + consumed then (some SLUGIFY_ERROR_BUFFER, out)
    else (none, out ++ charBytes)
  else
    match transliterate_char codepoint with
    | some tr =>
      if sz ≤ out.length + tr.length then (some SLUGIFY_ERROR_BUFFER, out)
      else (none, trans_append opts out tr)
    | none => (none, out)

/- The scan loop of slugify_ex: stops at end of input or when the output
   reaches sz - 1 bytes or when max_length is reached; otherwise decodes one
   code point with utf8_decode, runs slug_step on it (the code point's own
   input bytes are the consumed-count prefix of the remaining input), and
   advances by the consumed count, propagating a capacity error.  Fuel as in
   slugify_length_core. -/

def slug_loop (opts : slugify_options_t) (sz : Nat) :
    Nat → List Nat → List Nat → Option Nat × List Nat
  | 0, _, out => (none, out)
  | _ + 1, [], out => (none, out)
  | fuel + 1, c :: r, out =>
    if out.length < sz - 1 then
      if opts.max_length > 0 && decide (opts.max_length ≤ out.length) then (none, out)
      else
        match slug_step opts sz (utf8_decode (c :: r)).1 (utf8_decode (c :: r)).2
            ((c :: r).take (utf8_decode (c :: r)).2) out with
        | (some e, o) => (some e, o)
        | (none, o) => slug_loop opts sz fuel ((c :: r).drop (utf8_decode (c :: r)).2) o
    else (none, out)

/- Post-processing of slugify_ex: remove one trailing separator if present
   (the j-- step after the scan). -/

def slug_trim (opts : slugify_options_t) (out : List Nat) : List Nat :=
  if out.getLast? == some opts.separator then out.dropLast else out

/- slugify_ex: validate the whole input, run the scan into a buffer of
   out_size bytes, drop one trailing separator, fail on empty output.  The
   returned list is the NUL-terminated slug's bytes. -/

def slugify_ex (input : List Nat) (out_size : Nat) (opts : slugify_options_t) :
    Except Nat (List Nat) :=
  if out_size == 0 then .error SLUGIFY_ERROR_INVALID
  else if !(is_utf8_valid input) then .error SLUGIFY_ERROR_INVALID
  else
    match slug_loop opts out_size input.length input [] with
    | (some e, _) => .error e
    | (none, out) =>
      if (slug_trim opts out).isEmpty then .error SLUGIFY_ERROR_EMPTY
      else .ok (slug_trim opts out)

/- slugify: the auto-sizing entry point; allocates slugify_length bytes, runs
   slugify_ex, returns no output on any failure. -/

def slugify (input : List Nat) (opts : slugify_options_t) : Option (List Nat) :=
  match slugify_ex input (slugify_length input opts) opts with
  | .ok out => some out
  | .error _ => none

/- Verification-side definitions (stated from the spec's wording, used only in
   theorem statements). -/

/- The unique 2-, 3- and 4-byte UTF-8 encodings of a code point c < 0x80; all
   of them are overlong. -/

def overlong2 (c : Nat) : List Nat := [0xC0 + c / 64, 0x80 + c % 64]

def overlong3 (c : Nat) : List Nat := [0xE0, 0x80 + c / 64, 0x80 + c % 64]

def overlong4 (c : Nat) : List Nat := [0xF0, 0x80, 0x80 + c / 64, 0x80 + c % 64]

/- Strictly ascending key order, the invariant the spec states for the
   transliteration table. -/

def keys_strictly_sorted : List Nat → Bool
  | a :: b :: r => decide (a < b) && keys_strictly_sorted (b :: r)
  | _ => true

/- A separator byte that occurs in no transliteration replacement string. -/

def sep_free_of_table (s : Nat) : Bool :=
  transliteration_table.all (fun e => !(e.2.contains s))

/- Well-formed slugs: nonempty strings of lowercase ASCII alphanumerics and
   single interior separators 45, with no leading, trailing or doubled
   separator. -/

def is_lower_alnum (b : Nat) : Bool := decide ((48 ≤ b ∧ b ≤ 57) ∨ (97 ≤ b ∧ b ≤ 122))

def well_formed_rest (prev : Nat) : List Nat → Bool
  | [] => !(prev == 45)
  | b :: r => (is_lower_alnum b || (b == 45 && !(prev == 45))) && well_formed_rest b r

def well_formed_slug : List Nat → Bool
  | [] => false
  | b :: r => is_lower_alnum b && well_formed_rest b r

/- Output-buffer states in which the separator byte s neither leads the
   output nor appears twice in a row. -/

def sep_ok (s : Nat) (out : List Nat) : Prop :=
  out.head? ≠ some s ∧ List.Chain' (fun a b => ¬(a = s ∧ b = s)) out

/- Basic facts about the embedded operations. -/

theorem utf8_decode_consumed_pos (l : List Nat) : 1 ≤ (utf8_decode l).2 := by
  unfold utf8_decode
  repeat' split
  all_goals simp

theorem utf8_decode_consumed_le4 (l : List Nat) : (utf8_decode l).2 ≤ 4 := by
  unfold utf8_decode
  repeat' split
  all_goals simp

theorem trans_append_length_le (opts : slugify_options_t) :
    ∀ (out tr : List Nat), (trans_append opts out tr).length ≤ out.length + tr.length := by
  intro out tr
  induction out, tr using trans_append.induct opts with
  | case1 out => simp [trans_append]
  | case2 out b bs hbrk =>
    rw [trans_append]
    simp only [hbrk, if_true]
    simp
  | case3 out b bs hbrk ih =>
    rw [trans_append]
    simp only [hbrk, Bool.false_eq_true, if_false]
    simp only [List.length_append, List.length_cons, List.length_nil] at ih ⊢
    omega

theorem trans_append_length_max (opts : slugify_options_t) (hm : 0 < opts.max_length) :
    ∀ (out tr : List Nat), out.length < opts.max_length →
      (trans_append opts out tr).length ≤ opts.max_length := by
  intro out tr
  induction out, tr using trans_append.induct opts with
  | case1 out => intro h; simp [trans_append]; omega
  | case2 out b bs hbrk =>
    intro h
    rw [trans_append]
    simp only [hbrk, if_true]
    simp
    omega
  | case3 out b bs hbrk ih =>
    intro h
    rw [trans_append]
    simp only [hbrk, Bool.false_eq_true, if_false]
    simp only [Bool.and_eq_true, decide_eq_true_eq, not_and, not_le] at hbrk
    have h2 := hbrk hm
    simp only [List.length_append, List.length_cons, List.length_nil] at h2
    exact ih (by simp; omega)

theorem slug_step_basic (opts : slugify_options_t) (sz cp consumed : Nat)
    (cb out : List Nat) (hcb : cb.length ≤ consumed) :
    ∀ code o, slug_step opts sz cp consumed cb out = (code, o) →
      (code = none ∨ code = some SLUGIFY_ERROR_BUFFER) ∧
      (code ≠ none → o = out) ∧
      (out.length + 1 < sz → o.length < sz) := by
  intro code o h
  unfold slug_step at h
  repeat' split at h
  all_goals (
    injection h with h1 h2
    subst h1
    subst h2
    refine ⟨?_, ?_, ?_⟩)
  all_goals try (left; rfl)
  all_goals try (right; rfl)
  all_goals try (intro hne; first | rfl | exact absurd rfl hne)
  all_goals intro hg
  all_goals try simp only [List.length_append, List.length_cons, List.length_nil, not_le] at *
  all_goals try omega
  all_goals
    (rename_i tr heq hcap;
     have hb := trans_append_length_le opts out tr;
     simp only [List.length_append, List.length_cons, List.length_nil] at hb; omega)

/- General invariant-preservation principle for the scan loop: any property of
   the output buffer preserved by every successful slug_step (performed under
   the loop's guard and max_length check) holds of the buffer the loop leaves
   behind, whether it exits normally or with a capacity error. -/

theorem slug_loop_invariant (opts : slugify_options_t) (sz : Nat) (P : List Nat → Prop)
    (hstep : ∀ cp consumed cb out o, cb.length ≤ consumed → out.length < sz - 1 →
      (opts.max_length > 0 && decide (opts.max_length ≤ out.length)) = false → P out →
      slug_step opts sz cp consumed cb out = (none, o) → P o) :
    ∀ (fuel : Nat) (rest out : List Nat), P out → P (slug_loop opts sz fuel rest out).2 := by
  intro fuel
  induction fuel with
  | zero => intro rest out h; simpa [slug_loop] using h
  | succ fuel ih =>
    intro rest out h
    match rest with
    | [] => simpa [slug_loop] using h
    | c :: r =>
      rw [slug_loop]
      split
      · split
        · exact h
        · rename_i hg hmax
          split
          · rename_i e o heq
            have hb := slug_step_basic opts sz _ _ _ out (by
              rw [List.length_take]; exact Nat.min_le_left _ _) _ _ heq
            simpa [hb.2.1 (by simp)] using h
          · rename_i o heq
            exact ih _ o (hstep _ _ _ out o (by
              rw [List.length_take]; exact Nat.min_le_left _ _) hg
              (by simpa using hmax) h heq)
      · exact h

/- The loop can only fail with the capacity error. -/

theorem slug_loop_error_buffer (opts : slugify_options_t) (sz : Nat) :
    ∀ (fuel : Nat) (rest out : List Nat) (e : Nat) (o : List Nat),
      slug_loop opts sz fuel rest out = (some e, o) → e = SLUGIFY_ERROR_BUFFER := by
  intro fuel
  induction fuel with
  | zero => intro rest out e o h; simp [slug_loop] at h
  | succ fuel ih =>
    intro rest out e o h
    match rest with
    | [] => simp [slug_loop] at h
    | c :: r =>
      rw [slug_loop] at h
      split at h
      · split at h
        · simp at h
        · split at h
          · rename_i e2 o2 heq
            have hb := slug_step_basic opts sz _ _ _ out (by
              rw [List.length_take]; exact Nat.min_le_left _ _) _ _ heq
            rcases hb.1 with h1 | h1
            · simp at h1
            · injection h with hcode _
              injection hcode with hcode
              injection h1 with h1
              subst hcode
              exact h1
          · exact ih _ _ _ _ h
      · simp at h

theorem slug_trim_length_le (opts : slugify_options_t) (out : List Nat) :
    (slug_trim opts out).length ≤ out.length := by
  unfold slug_trim
  split
  · simp [List.length_dropLast]
  · exact Nat.le_refl _

theorem slugify_ex_ok_inv (input : List Nat) (sz : Nat) (opts : slugify_options_t)
    (out : List Nat) (h : slugify_ex input sz opts = .ok out) :
    is_utf8_valid input = true ∧ sz ≠ 0 ∧
    ∃ o, slug_loop opts sz input.length input [] = (none, o) ∧
      out = slug_trim opts o ∧ out ≠ [] := by
  unfold slugify_ex at h
  split at h
  · exact absurd h (by simp)
  split at h
  · exact absurd h (by simp)
  rename_i hsz hv
  refine ⟨by simpa using hv, by simpa using hsz, ?_⟩
  split at h
  · exact absurd h (by simp)
  rename_i o hloop
  split at h
  · exact absurd h (by simp)
  rename_i hne
  refine ⟨o, hloop, ?_, ?_⟩
  · injection h with h1
    exact h1.symm
  · injection h with h1
    subst h1
    simpa using hne

/-- Claim C4: for every input, options and declared capacity out_size of at
least 1, the scan never lets the output buffer reach out_size bytes: the
buffer the loop leaves behind (also on a capacity error) is shorter than
out_size, so every byte write, and the terminating NUL at the final output
length, lands at an index below out_size. -/
theorem c4_writes_bounded_by_out_size (input : List Nat) (opts : slugify_options_t)
    (out_size : Nat) (h : 1 ≤ out_size) :
    (slug_loop opts out_size input.length input []).2.length < out_size ∧
    (∀ out, slugify_ex input out_size opts = .ok out → out.length < out_size) := by
  have hloop : ∀ fuel rest (o : List Nat), o.length < out_size →
      (slug_loop opts out_size fuel rest o).2.length < out_size := by
    intro fuel rest o ho
    refine slug_loop_invariant opts out_size (fun b => b.length < out_size) ?_ fuel rest o ho
    intro cp consumed cb b o2 hcb hg _ _ heq
    exact (slug_step_basic opts out_size cp consumed cb b hcb _ _ heq).2.2 (by omega)
  refine ⟨hloop _ _ [] (by simpa using h), ?_⟩
  intro out hok
  obtain ⟨_, _, o, hlp, hout, _⟩ := slugify_ex_ok_inv input out_size opts out hok
  have h1 : o.length < out_size := by
    have := hloop input.length input [] (by simpa using h)
    rw [hlp] at this
    exact this
  have h2 := slug_trim_length_le opts o
  rw [hout]
  omega

theorem c4_writes_bounded_witness :
    (1 ≤ 3) ∧
    ((slug_loop slugify_default_options 3 5 [104, 101, 108, 108, 111] []).2.length < 3 ∧
     (∀ out, slugify_ex [104, 101, 108, 108, 111] 3 slugify_default_options = .ok out →
       out.length < 3)) :=
  ⟨by decide, c4_writes_bounded_by_out_size [104, 101, 108, 108, 111]
    slugify_default_options 3 (by decide)⟩

theorem slug_step_maxlen (opts : slugify_options_t) (hp : opts.preserve_case = false)
    (hm : 0 < opts.max_length) (sz cp consumed : Nat) (cb out : List Nat)
    (hlt : out.length < opts.max_length) :
    ∀ code o, slug_step opts sz cp consumed cb out = (code, o) →
      o.length ≤ opts.max_length := by
  intro code o h
  unfold slug_step at h
  repeat' split at h
  all_goals (injection h with h1 h2; subst h2)
  all_goals try omega
  all_goals try (simp only [List.length_append, List.length_cons, List.length_nil]; omega)
  all_goals try (rename_i hpc _; rw [hp] at hpc; exact absurd hpc (by simp))
  all_goals (rename_i tr heq hcap; exact trans_append_length_max opts hm out tr hlt)

/-- Claim C7 (amended): with preserve_case = false and max_length > 0, a
successful conversion returns at most max_length bytes; in particular
"Hello" with max_length 3 yields "hel".  (With preserve_case = true the
verbatim UTF-8 copy is not clipped to max_length — see the counterexample.) -/
theorem c7_max_length_truncation (input : List Nat) (sz : Nat) (opts : slugify_options_t)
    (hp : opts.preserve_case = false) (hm : 0 < opts.max_length) :
    (∀ out, slugify_ex input sz opts = .ok out → out.length ≤ opts.max_length) ∧
    slugify [0x48, 0x65, 0x6C, 0x6C, 0x6F]
      { preserve_case := false, separator := 45, max_length := 3 } = some [104, 101, 108] := by
  refine ⟨?_, by decide⟩
  intro out hok
  obtain ⟨_, _, o, hlp, hout, _⟩ := slugify_ex_ok_inv input sz opts out hok
  have hloop : (slug_loop opts sz input.length input []).2.length ≤ opts.max_length := by
    refine slug_loop_invariant opts sz (fun b => b.length ≤ opts.max_length) ?_ _ _ []
      (by simp)
    intro cp consumed cb b o2 hcb hg hmax hb heq
    have hblt : b.length < opts.max_length := by
      simp only [Bool.and_eq_false_iff, decide_eq_false_iff_not, not_le] at hmax
      rcases hmax with h1 | h1
      · omega
      · exact h1
    exact slug_step_maxlen opts hp hm sz cp consumed cb b hblt _ _ heq
  rw [hlp] at hloop
  have hol : o.length ≤ opts.max_length := by simpa using hloop
  have := slug_trim_length_le opts o
  rw [hout]
  omega

theorem c7_max_length_truncation_witness :
    (({ preserve_case := false, separator := 45, max_length := 3 } :
        slugify_options_t).preserve_case = false ∧
     0 < ({ preserve_case := false, separator := 45, max_length := 3 } :
        slugify_options_t).max_length) ∧
    ((∀ out, slugify_ex [0x48, 0x65, 0x6C, 0x6C, 0x6F] 6
        { preserve_case := false, separator := 45, max_length := 3 } = .ok out →
        out.length ≤ ({ preserve_case := false, separator := 45, max_length := 3 } :
          slugify_options_t).max_length) ∧
     slugify [0x48, 0x65, 0x6C, 0x6C, 0x6F]
       { preserve_case := false, separator := 45, max_length := 3 } = some [104, 101, 108]) :=
  ⟨⟨by decide, by decide⟩,
   c7_max_length_truncation [0x48, 0x65, 0x6C, 0x6C, 0x6F] 6
     { preserve_case := false, separator := 45, max_length := 3 } (by decide) (by decide)⟩

theorem sep_cond_imp (cp : Nat)
    (h : (c_isspace cp || cp == 45 || cp == 95 || c_ispunct cp) = true) :
    (c_isspace cp || c_ispunct cp) = true := by
  simp only [Bool.or_eq_true, beq_iff_eq] at h ⊢
  rcases h with ((h | h) | h) | h
  · exact Or.inl h
  · subst h; exact Or.inr (by decide)
  · subst h; exact Or.inr (by decide)
  · exact Or.inr h

/- A successful slug_step writes at most char_cost bytes, and when char_cost
   more bytes still fit strictly below sz the step cannot fail. -/

theorem slug_step_cost (opts : slugify_options_t) (sz cp consumed : Nat)
    (cb out : List Nat) (hcb : cb.length ≤ consumed)
    (hcost : out.length + char_cost opts cp consumed < sz) :
    ∀ code o, slug_step opts sz cp consumed cb out = (code, o) →
      code = none ∧ o.length ≤ out.length + char_cost opts cp consumed := by
  intro code o h
  unfold slug_step at h
  repeat' split at h
  all_goals (injection h with h1 h2; subst h2; subst h1)
  all_goals try (have h45 := sep_cond_imp cp (by assumption))
  all_goals unfold char_cost at hcost
  all_goals try simp only [*, ite_true, ite_false, if_true, if_false, Bool.false_eq_true,
    Bool.true_eq_false, eq_self_iff_true] at hcost
  all_goals try (exfalso; omega)
  all_goals refine ⟨rfl, ?_⟩
  all_goals unfold char_cost
  all_goals try simp only [*, ite_true, ite_false, if_true, if_false, Bool.false_eq_true,
    Bool.true_eq_false, eq_self_iff_true]
  all_goals try omega
  all_goals try (simp only [List.length_append, List.length_cons, List.length_nil]; omega)
  all_goals
    (rename_i tr heq hcap;
     have hta := trans_append_length_le opts out tr;
     omega)

/- When the worst-case estimate of the remaining input still fits, the loop
   cannot fail and writes at most that estimate. -/

theorem slug_loop_cost (opts : slugify_options_t) (sz : Nat) :
    ∀ (fuel : Nat) (rest out : List Nat),
      out.length + slugify_length_core opts fuel rest < sz →
      (slug_loop opts sz fuel rest out).1 = none := by
  intro fuel
  induction fuel with
  | zero => intro rest out _; simp [slug_loop]
  | succ fuel ih =>
    intro rest out h
    match rest with
    | [] => simp [slug_loop]
    | c :: r =>
      rw [slugify_length_core] at h
      rw [slug_loop]
      split
      · split
        · rfl
        · split
          · rename_i e o heq
            have hc := slug_step_cost opts sz _ _ _ out
              (by rw [List.length_take]; exact Nat.min_le_left _ _) (by omega) _ _ heq
            simp at hc
          · rename_i o heq
            have hc := slug_step_cost opts sz _ _ _ out
              (by rw [List.length_take]; exact Nat.min_le_left _ _) (by omega) _ _ heq
            exact ih _ o (by omega)
      · rfl

/-- Claim C10: through the auto-sizing entry point slugify, which sizes the
buffer as slugify_length's worst-case estimate (ASCII passthrough 1 byte,
transliterations their replacement length, dropped characters 0, plus one
terminator byte), the capacity error SLUGIFY_ERROR_BUFFER is unreachable:
slugify_ex run with that buffer size never returns it, on any input and
options. -/
theorem c10_buffer_error_unreachable (input : List Nat) (opts : slugify_options_t) :
    slugify_ex input (slugify_length input opts) opts ≠ .error SLUGIFY_ERROR_BUFFER := by
  intro h
  unfold slugify_ex at h
  split at h
  · simp [SLUGIFY_ERROR_INVALID, SLUGIFY_ERROR_BUFFER] at h
  split at h
  · simp [SLUGIFY_ERROR_INVALID, SLUGIFY_ERROR_BUFFER] at h
  split at h
  · rename_i e o heq
    have := slug_loop_cost opts (slugify_length input opts) input.length input []
      (by simp [slugify_length])
    rw [heq] at this
    simp at this
  · split at h
    · simp [SLUGIFY_ERROR_EMPTY, SLUGIFY_ERROR_BUFFER] at h
    · simp at h

theorem utf8_char_length_pos (c : Nat) : 1 ≤ utf8_char_length c := by
  unfold utf8_char_length
  repeat' split
  all_goals simp

theorem is_utf8_valid_core_nil (fuel : Nat) : is_utf8_valid_core fuel [] = true := by
  cases fuel <;> rfl

theorem is_utf8_valid_core_congr :
    ∀ (f1 f2 : Nat) (l : List Nat), l.length ≤ f1 → l.length ≤ f2 →
      is_utf8_valid_core f1 l = is_utf8_valid_core f2 l := by
  intro f1
  induction f1 with
  | zero =>
    intro f2 l h1 _
    have : l = [] := by
      cases l
      · rfl
      · simp at h1
    subst this
    rw [is_utf8_valid_core_nil, is_utf8_valid_core_nil]
  | succ f1 ih =>
    intro f2 l h1 h2
    match l with
    | [] => rw [is_utf8_valid_core_nil, is_utf8_valid_core_nil]
    | c :: r =>
      match f2 with
      | 0 => simp at h2
      | f2 + 1 =>
        rw [is_utf8_valid_core, is_utf8_valid_core]
        have hn := utf8_char_length_pos c
        have hlen : ((c :: r).drop (utf8_char_length c)).length ≤ f1 := by
          simp only [List.length_drop, List.length_cons] at *
          omega
        have hlen2 : ((c :: r).drop (utf8_char_length c)).length ≤ f2 := by
          simp only [List.length_drop, List.length_cons] at *
          omega
        rw [ih f2 _ hlen hlen2]

theorem is_utf8_valid_cons (c : Nat) (r : List Nat) :
    is_utf8_valid (c :: r) =
      (utf8_head_valid c r && is_utf8_valid ((c :: r).drop (utf8_char_length c))) := by
  unfold is_utf8_valid
  rw [show (c :: r).length = r.length + 1 from rfl, is_utf8_valid_core]
  congr 1
  exact is_utf8_valid_core_congr _ _ _
    (by have := utf8_char_length_pos c; simp [List.length_drop]; omega)
    (Nat.le_refl _)

theorem utf8_head_valid_append (c : Nat) (r x : List Nat)
    (h : utf8_head_valid c r = true) : utf8_head_valid c (r ++ x) = true := by
  unfold utf8_head_valid at h ⊢
  split at h
  · exact absurd h (by simp)
  rename_i hg
  rw [if_neg (by simp only [List.length_append]; omega)]
  by_cases h1 : c < 0x80
  · rw [if_pos h1] at h ⊢
    exact h
  rw [if_neg h1] at h ⊢
  by_cases h2 : (c &&& 0xE0 == 0xC0) = true
  · rw [if_pos h2] at h ⊢
    have hr : 0 < r.length := by
      simp only [utf8_char_length, if_neg h1, if_pos h2] at hg
      omega
    rw [List.getD_append _ _ _ _ (by omega)]
    exact h
  rw [if_neg h2] at h ⊢
  by_cases h3 : (c &&& 0xF0 == 0xE0) = true
  · rw [if_pos h3] at h ⊢
    have hr : 2 ≤ r.length := by
      simp only [utf8_char_length, if_neg h1, if_neg h2, if_pos h3] at hg
      omega
    rw [List.getD_append _ _ _ _ (by omega), List.getD_append _ _ _ _ (by omega)]
    exact h
  rw [if_neg h3] at h ⊢
  by_cases h4 : (c &&& 0xF8 == 0xF0) = true
  · rw [if_pos h4] at h ⊢
    have hr : 3 ≤ r.length := by
      simp only [utf8_char_length, if_neg h1, if_neg h2, if_neg h3, if_pos h4] at hg
      omega
    rw [List.getD_append _ _ _ _ (by omega), List.getD_append _ _ _ _ (by omega),
      List.getD_append _ _ _ _ (by omega)]
    exact h
  rw [if_neg h4] at h ⊢
  exact h

theorem utf8_head_valid_length (c : Nat) (r : List Nat)
    (h : utf8_head_valid c r = true) : utf8_char_length c ≤ 1 + r.length := by
  unfold utf8_head_valid at h
  split at h
  · exact absurd h (by simp)
  · omega

/- A valid prefix scans to its end, so validity of an appended input reduces
   to validity of the appended part. -/

theorem is_utf8_valid_append (p : List Nat) (hp : is_utf8_valid p = true) :
    ∀ x, is_utf8_valid (p ++ x) = is_utf8_valid x := by
  have H : ∀ (n : Nat) (p : List Nat), p.length ≤ n → is_utf8_valid p = true →
      ∀ x, is_utf8_valid (p ++ x) = is_utf8_valid x := by
    intro n
    induction n with
    | zero =>
      intro p hl _ x
      have : p = [] := by
        cases p
        · rfl
        · simp at hl
      subst this
      simp
    | succ n ih =>
      intro p hl hp x
      match p with
      | [] => simp
      | c :: r =>
        rw [is_utf8_valid_cons] at hp
        simp only [Bool.and_eq_true] at hp
        have hhd := hp.1
        have htl := hp.2
        have hcl := utf8_head_valid_length c r hhd
        have hget : (c :: r ++ x).drop (utf8_char_length c) =
            ((c :: r).drop (utf8_char_length c)) ++ x := by
          rw [show c :: r ++ x = (c :: r) ++ x from rfl]
          exact List.drop_append_of_le_length (by simp; omega)
        rw [show (c :: r) ++ x = c :: (r ++ x) from rfl, is_utf8_valid_cons,
          utf8_head_valid_append c r x hhd]
        simp only [Bool.true_and]
        rw [show c :: (r ++ x) = (c :: r) ++ x from rfl, hget]
        exact ih _ (by simp at hl ⊢; have := utf8_char_length_pos c; omega) htl x
  exact H p.length p (Nat.le_refl _) hp

/- Any input starting with the overlong 2-byte encoding of c < 0x80 fails
   validation, whatever follows. -/

theorem overlong2_append_invalid (c : Nat) (hc : c < 0x80) (q : List Nat) :
    is_utf8_valid (overlong2 c ++ q) = false := by
  have hm : c % 64 < 64 := Nat.mod_lt _ (by omega)
  have hcont : ∀ m : Nat, m < 64 → utf8_cont (128 + m) = true := by decide
  have hcp0 : ∀ m : Nat, m < 64 → ((192 &&& 31) <<< 6 ||| ((128 + m) &&& 63)) = m := by decide
  have hcp1 : ∀ m : Nat, m < 64 →
      ((193 &&& 31) <<< 6 ||| ((128 + m) &&& 63)) = 64 + m := by decide
  have hchk : ∀ v : Nat, v < 128 → utf8_checks 2 v = false := by decide
  have hd : c / 64 = 0 ∨ c / 64 = 1 := by omega
  show is_utf8_valid ((192 + c / 64) :: (128 + c % 64) :: q) = false
  rw [is_utf8_valid_cons]
  rcases hd with hd | hd <;> rw [hd]
  · rw [show (192 + 0 : Nat) = 192 from rfl]
    unfold utf8_head_valid
    rw [show utf8_char_length 192 = 2 from by decide]
    rw [if_neg (by simp; omega)]
    rw [if_neg (by decide), if_pos (by decide)]
    simp only [List.getD_cons_zero]
    rw [hcp0 _ hm, hchk _ (by omega)]
    simp
  · rw [show (192 + 1 : Nat) = 193 from rfl]
    unfold utf8_head_valid
    rw [show utf8_char_length 193 = 2 from by decide]
    rw [if_neg (by simp; omega)]
    rw [if_neg (by decide), if_pos (by decide)]
    simp only [List.getD_cons_zero]
    rw [hcp1 _ hm, hchk _ (by omega)]
    simp

theorem slugify_ex_of_invalid (input : List Nat) (sz : Nat) (opts : slugify_options_t)
    (h : is_utf8_valid input = false) :
    slugify_ex input sz opts = .error SLUGIFY_ERROR_INVALID := by
  unfold slugify_ex
  split
  · rfl
  · simp [h]

theorem slugify_of_invalid (input : List Nat) (opts : slugify_options_t)
    (h : is_utf8_valid input = false) :
    slugify input opts = none := by
  unfold slugify
  rw [slugify_ex_of_invalid _ _ _ h]

theorem slugify_ex_not_invalid (input : List Nat) (sz : Nat) (opts : slugify_options_t)
    (hv : is_utf8_valid input = true) (hsz : sz ≠ 0) :
    slugify_ex input sz opts ≠ .error SLUGIFY_ERROR_INVALID := by
  intro h
  unfold slugify_ex at h
  split at h
  · rename_i h0
    simp at h0
    exact hsz h0
  split at h
  · rename_i h0
    rw [hv] at h0
    simp at h0
  split at h
  · rename_i e o heq
    have he := slug_loop_error_buffer opts sz input.length input [] e o heq
    injection h with h1
    rw [he] at h1
    simp [SLUGIFY_ERROR_BUFFER, SLUGIFY_ERROR_INVALID] at h1
  · split at h
    · injection h with h1
      simp [SLUGIFY_ERROR_EMPTY, SLUGIFY_ERROR_INVALID] at h1
    · exact absurd h (by simp)

theorem overlong2_invalid (c : Nat) (hc : c < 0x80) :
    is_utf8_valid (overlong2 c) = false := by
  have := overlong2_append_invalid c hc []
  simpa using this

theorem overlong3_invalid (c : Nat) (hc : c < 0x80) :
    is_utf8_valid (overlong3 c) = false := by
  unfold overlong3
  interval_cases c <;> decide

theorem overlong4_invalid (c : Nat) (hc : c < 0x80) :
    is_utf8_valid (overlong4 c) = false := by
  unfold overlong4
  interval_cases c <;> decide

theorem ascii_single_valid (c : Nat) (hc : c < 0x80) : is_utf8_valid [c] = true := by
  have : ∀ b : Nat, b < 128 → is_utf8_valid [b] = true := by decide
  exact this c hc

/-- Claim C2 (amended): every overlong 2-, 3- or 4-byte encoding of a code
point c < 0x80 is rejected with the invalid-input error (for any buffer size
and options, and through the auto-sizing entry point), while the minimal
encoding of c is never rejected as invalid input; 0x41 slugifies to "a".
(The minimal encoding need not convert successfully for every c: unmapped
punctuation such as 0x21 fails with the empty-result error instead — see the
counterexample.) -/
theorem c2_overlong_rejected_minimal_not_invalid (c sz : Nat) (opts : slugify_options_t)
    (hc : c < 0x80) :
    slugify_ex (overlong2 c) sz opts = .error SLUGIFY_ERROR_INVALID ∧
    slugify_ex (overlong3 c) sz opts = .error SLUGIFY_ERROR_INVALID ∧
    slugify_ex (overlong4 c) sz opts = .error SLUGIFY_ERROR_INVALID ∧
    slugify (overlong2 c) opts = none ∧
    slugify (overlong3 c) opts = none ∧
    slugify (overlong4 c) opts = none ∧
    slugify_ex [c] (slugify_length [c] opts) opts ≠ .error SLUGIFY_ERROR_INVALID ∧
    slugify [0x41] slugify_default_options = some [0x61] := by
  refine ⟨slugify_ex_of_invalid _ _ _ (overlong2_invalid c hc),
    slugify_ex_of_invalid _ _ _ (overlong3_invalid c hc),
    slugify_ex_of_invalid _ _ _ (overlong4_invalid c hc),
    slugify_of_invalid _ _ (overlong2_invalid c hc),
    slugify_of_invalid _ _ (overlong3_invalid c hc),
    slugify_of_invalid _ _ (overlong4_invalid c hc),
    slugify_ex_not_invalid _ _ _ (ascii_single_valid c hc) (by simp [slugify_length]),
    by decide⟩

theorem c2_overlong_witness :
    ((0x41 : Nat) < 0x80) ∧
    (slugify_ex (overlong2 0x41) 8 slugify_default_options = .error SLUGIFY_ERROR_INVALID ∧
     slugify_ex (overlong3 0x41) 8 slugify_default_options = .error SLUGIFY_ERROR_INVALID ∧
     slugify_ex (overlong4 0x41) 8 slugify_default_options = .error SLUGIFY_ERROR_INVALID ∧
     slugify (overlong2 0x41) slugify_default_options = none ∧
     slugify (overlong3 0x41) slugify_default_options = none ∧
     slugify (overlong4 0x41) slugify_default_options = none ∧
     slugify_ex [0x41] (slugify_length [0x41] slugify_default_options)
       slugify_default_options ≠ .error SLUGIFY_ERROR_INVALID ∧
     slugify [0x41] slugify_default_options = some [0x61]) :=
  ⟨by decide,
   c2_overlong_rejected_minimal_not_invalid 0x41 8 slugify_default_options (by decide)⟩

/-- Claim C3 (amended): an input made of a valid UTF-8 prefix, an invalid
sequence that the validator actually rejects (an overlong encoding as the
representative case) and an arbitrary suffix is rejected as a whole:
slugify_ex returns the invalid-input error for every buffer size, and
slugify returns no output at all — the valid prefix is never returned as a
partial slug. (The all-or-nothing guarantee does not extend to every
sequence that is invalid per the spec's UTF-8 rules: stray bytes in
0x80–0xBF and 0xF8–0xFF escape the validator — the same slip recorded under
claim C1 — so a valid prefix followed by such a byte can yield a partial
slug; see the counterexample.) -/
theorem c3_all_or_nothing (p q : List Nat) (c : Nat) (opts : slugify_options_t)
    (hp : is_utf8_valid p = true) (hc : c < 0x80) :
    (∀ out_size, slugify_ex (p ++ (overlong2 c ++ q)) out_size opts =
      .error SLUGIFY_ERROR_INVALID) ∧
    slugify (p ++ (overlong2 c ++ q)) opts = none := by
  have hinv : is_utf8_valid (p ++ (overlong2 c ++ q)) = false := by
    rw [is_utf8_valid_append p hp]
    exact overlong2_append_invalid c hc q
  exact ⟨fun sz => slugify_ex_of_invalid _ _ _ hinv, slugify_of_invalid _ _ hinv⟩

theorem c3_all_or_nothing_witness :
    (is_utf8_valid [0xC3, 0xB1] = true ∧ (0x2F : Nat) < 0x80) ∧
    (slugify_ex ([0xC3, 0xB1] ++ (overlong2 0x2F ++ [0x41])) 16 slugify_default_options =
       .error SLUGIFY_ERROR_INVALID ∧
     slugify ([0xC3, 0xB1] ++ (overlong2 0x2F ++ [0x41])) slugify_default_options = none) :=
  ⟨⟨by decide, by decide⟩,
   ⟨(c3_all_or_nothing [0xC3, 0xB1] [0x41] 0x2F slugify_default_options
       (by decide) (by decide)).1 16,
    (c3_all_or_nothing [0xC3, 0xB1] [0x41] 0x2F slugify_default_options
       (by decide) (by decide)).2⟩⟩

theorem utf8_cont_ge_128 (b : Nat) (h : utf8_cont b = true) : 128 ≤ b := by
  unfold utf8_cont at h
  simp at h
  have h2 : b &&& 0xC0 ≤ b := Nat.and_le_left
  omega

theorem chain_sep_of_not_mem (s : Nat) :
    ∀ ws : List Nat, (∀ w ∈ ws, w ≠ s) →
      List.Chain' (fun a b => ¬(a = s ∧ b = s)) ws := by
  intro ws
  induction ws with
  | nil => intro _; exact List.chain'_nil
  | cons w t ih =>
    intro h
    cases t with
    | nil => exact List.chain'_singleton w
    | cons w2 t2 =>
      refine List.Chain'.cons ?_ (ih (fun x hx => h x (List.mem_cons_of_mem w hx)))
      intro hc
      exact h w2 (List.mem_cons_of_mem w (List.mem_cons_self w2 t2)) hc.2

theorem sep_ok_append (s : Nat) (out ws : List Nat) (h : sep_ok s out)
    (hws : ∀ w ∈ ws, w ≠ s) : sep_ok s (out ++ ws) := by
  obtain ⟨hh, hc⟩ := h
  constructor
  · cases out with
    | nil =>
      simp only [List.nil_append]
      cases ws with
      | nil => simp
      | cons w t =>
        simp only [List.head?_cons, ne_eq, Option.some.injEq]
        exact hws w (List.mem_cons_self w t)
    | cons a t =>
      rw [List.head?_append_of_ne_nil _ (by simp)]
      exact hh
  · rw [List.chain'_append]
    refine ⟨hc, chain_sep_of_not_mem s ws hws, ?_⟩
    intro x _ y hy hxy
    exact hws y (List.mem_of_mem_head? hy) hxy.2

theorem sep_ok_append_single (s : Nat) (out : List Nat) (w : Nat) (h : sep_ok s out)
    (hw : w ≠ s) : sep_ok s (out ++ [w]) :=
  sep_ok_append s out [w] h (by simpa using hw)

theorem sep_ok_append_sep (s : Nat) (out : List Nat) (h : sep_ok s out)
    (hne : out ≠ []) (hlast : out.getLast? ≠ some s) : sep_ok s (out ++ [s]) := by
  obtain ⟨hh, hc⟩ := h
  constructor
  · rw [List.head?_append_of_ne_nil _ hne]
    exact hh
  · rw [List.chain'_append]
    refine ⟨hc, List.chain'_singleton s, ?_⟩
    intro x hx y hy hxy
    exact hlast (by rw [Option.mem_def] at hx; rw [hx, hxy.1])

theorem c_isalnum_bound (b : Nat) (h : c_isalnum b = true) : b < 256 := by
  unfold c_isalnum at h
  simp only [decide_eq_true_eq] at h
  omega

theorem c_isalnum_tolower (b : Nat) (h : c_isalnum b = true) :
    c_isalnum (c_tolower b) = true := by
  have hb := c_isalnum_bound b h
  have : ∀ x : Nat, x < 256 → c_isalnum x = true → c_isalnum (c_tolower x) = true := by decide
  exact this b hb h

theorem c_tolower_ne_sep (s b : Nat) (hs : c_isalnum s = false) (hb : b ≠ s) :
    c_tolower b ≠ s := by
  unfold c_tolower
  split
  · rename_i hrange
    intro hcontra
    have : c_isalnum s = true := by
      unfold c_isalnum
      simp only [decide_eq_true_eq]
      omega
    rw [hs] at this
    simp at this
  · exact hb

theorem alnum_write_ne_sep (opts : slugify_options_t) (cp : Nat)
    (hsal : c_isalnum opts.separator = false) (halnum : c_isalnum cp = true) :
    (if opts.preserve_case then cp else c_tolower cp) ≠ opts.separator := by
  have h1 : cp ≠ opts.separator := by
    intro h
    rw [h, hsal] at halnum
    simp at halnum
  split
  · exact h1
  · intro h
    have := c_isalnum_tolower cp halnum
    rw [h, hsal] at this
    simp at this

theorem transliterate_search_mem (cp : Nat) :
    ∀ (fuel lo hi1 : Nat), hi1 ≤ transliteration_table.length →
      ∀ tr, transliterate_search cp fuel lo hi1 = some tr →
        ∃ k, (k, tr) ∈ transliteration_table := by
  intro fuel
  induction fuel with
  | zero => intro lo hi1 _ tr h; simp [transliterate_search] at h
  | succ fuel ih =>
    intro lo hi1 hle tr h
    rw [transliterate_search] at h
    split at h
    · rename_i hlo
      split at h
      · injection h with h1
        have hmid : (lo + hi1 - 1) / 2 < transliteration_table.length := by omega
        refine ⟨(table_entry ((lo + hi1 - 1) / 2)).1, ?_⟩
        rw [← h1]
        have : table_entry ((lo + hi1 - 1) / 2) ∈ transliteration_table := by
          unfold table_entry
          rw [List.getD_eq_getElem _ _ hmid]
          exact List.getElem_mem _
        simpa using this
      · split at h
        · exact ih _ _ hle _ h
        · exact ih _ _ (by omega) _ h
    · simp at h

theorem transliterate_char_mem (cp : Nat) (tr : List Nat)
    (h : transliterate_char cp = some tr) : ∃ k, (k, tr) ∈ transliteration_table := by
  unfold transliterate_char at h
  exact transliterate_search_mem cp 1024 0 transliteration_table.length (Nat.le_refl _) tr h

theorem sep_free_not_mem (s : Nat) (hfree : sep_free_of_table s = true)
    (k : Nat) (tr : List Nat) (hmem : (k, tr) ∈ transliteration_table) : s ∉ tr := by
  unfold sep_free_of_table at hfree
  rw [List.all_eq_true] at hfree
  have := hfree (k, tr) hmem
  simp only [Bool.not_eq_true'] at this
  intro hcontra
  simp at this
  exact this hcontra

theorem trans_byte_ne_sep (opts : slugify_options_t) (cp : Nat) (tr : List Nat)
    (hsal : c_isalnum opts.separator = false)
    (hfree : sep_free_of_table opts.separator = true)
    (htr : transliterate_char cp = some tr) :
    ∀ b ∈ tr, (if opts.preserve_case then b else c_tolower b) ≠ opts.separator := by
  intro b hb
  obtain ⟨k, hk⟩ := transliterate_char_mem cp tr htr
  have hnb : b ≠ opts.separator := by
    intro h
    exact sep_free_not_mem opts.separator hfree k tr hk (h ▸ hb)
  split
  · exact hnb
  · exact c_tolower_ne_sep opts.separator b hsal hnb

theorem trans_append_sep_ok (opts : slugify_options_t) :
    ∀ (out tr : List Nat), sep_ok opts.separator out →
      (∀ b ∈ tr, (if opts.preserve_case then b else c_tolower b) ≠ opts.separator) →
      sep_ok opts.separator (trans_append opts out tr) := by
  intro out tr
  induction out, tr using trans_append.induct opts with
  | case1 out => intro h _; simpa [trans_append] using h
  | case2 out b bs hbrk =>
    intro h hb
    rw [trans_append]
    simp only [hbrk, if_true]
    exact sep_ok_append_single _ _ _ h (hb b (List.mem_cons_self b bs))
  | case3 out b bs hbrk ih =>
    intro h hb
    rw [trans_append]
    simp only [hbrk, Bool.false_eq_true, if_false]
    exact ih (sep_ok_append_single _ _ _ h (hb b (List.mem_cons_self b bs)))
      (fun x hx => hb x (List.mem_cons_of_mem b hx))

theorem utf8_decode_cons_ascii (c : Nat) (r : List Nat) (h : c < 0x80) :
    utf8_decode (c :: r) = (c, 1) := by
  rw [utf8_decode]
  rw [if_pos h]

theorem utf8_decode_cons_2 (c : Nat) (r : List Nat) (h1 : ¬ c < 0x80)
    (h2 : (c &&& 0xE0 == 0xC0) = true) :
    utf8_decode (c :: r) = (((c &&& 0x1F) <<< 6) ||| ((r.getD 0 0) &&& 0x3F), 2) := by
  rw [utf8_decode]
  rw [if_neg h1, if_pos h2]

theorem utf8_decode_cons_3 (c : Nat) (r : List Nat) (h1 : ¬ c < 0x80)
    (h2 : ¬ (c &&& 0xE0 == 0xC0) = true) (h3 : (c &&& 0xF0 == 0xE0) = true) :
    utf8_decode (c :: r) =
      (((c &&& 0x0F) <<< 12) ||| (((r.getD 0 0) &&& 0x3F) <<< 6) ||| ((r.getD 1 0) &&& 0x3F),
       3) := by
  rw [utf8_decode]
  rw [if_neg h1, if_neg h2, if_pos h3]

theorem utf8_decode_cons_4 (c : Nat) (r : List Nat) (h1 : ¬ c < 0x80)
    (h2 : ¬ (c &&& 0xE0 == 0xC0) = true) (h3 : ¬ (c &&& 0xF0 == 0xE0) = true)
    (h4 : (c &&& 0xF8 == 0xF0) = true) :
    utf8_decode (c :: r) =
      (((c &&& 0x07) <<< 18) ||| (((r.getD 0 0) &&& 0x3F) <<< 12) |||
       (((r.getD 1 0) &&& 0x3F) <<< 6) ||| ((r.getD 2 0) &&& 0x3F), 4) := by
  rw [utf8_decode]
  rw [if_neg h1, if_neg h2, if_neg h3, if_pos h4]

theorem utf8_decode_cons_other (c : Nat) (r : List Nat) (h1 : ¬ c < 0x80)
    (h2 : ¬ (c &&& 0xE0 == 0xC0) = true) (h3 : ¬ (c &&& 0xF0 == 0xE0) = true)
    (h4 : ¬ (c &&& 0xF8 == 0xF0) = true) :
    utf8_decode (c :: r) = (c, 1) := by
  rw [utf8_decode]
  rw [if_neg h1, if_neg h2, if_neg h3, if_neg h4]

theorem utf8_decode_consumed_eq (c : Nat) (r : List Nat) :
    (utf8_decode (c :: r)).2 = utf8_char_length c := by
  unfold utf8_char_length
  by_cases h1 : c < 0x80
  · rw [utf8_decode_cons_ascii c r h1, if_pos h1]
  rw [if_neg h1]
  by_cases h2 : (c &&& 0xE0 == 0xC0) = true
  · rw [utf8_decode_cons_2 c r h1 h2, if_pos h2]
  rw [if_neg h2]
  by_cases h3 : (c &&& 0xF0 == 0xE0) = true
  · rw [utf8_decode_cons_3 c r h1 h2 h3, if_pos h3]
  rw [if_neg h3]
  by_cases h4 : (c &&& 0xF8 == 0xF0) = true
  · rw [utf8_decode_cons_4 c r h1 h2 h3 h4, if_pos h4]
  rw [utf8_decode_cons_other c r h1 h2 h3 h4, if_neg h4]

theorem is_utf8_valid_drop_decode (c : Nat) (r : List Nat)
    (hv : is_utf8_valid (c :: r) = true) :
    is_utf8_valid ((c :: r).drop (utf8_decode (c :: r)).2) = true := by
  rw [utf8_decode_consumed_eq]
  rw [is_utf8_valid_cons] at hv
  simp only [Bool.and_eq_true] at hv
  exact hv.2

theorem valid_take_ge_128 (c : Nat) (r : List Nat) (hv : is_utf8_valid (c :: r) = true)
    (hge : ¬ (utf8_decode (c :: r)).1 < 128) :
    ∀ b ∈ (c :: r).take (utf8_decode (c :: r)).2, 128 ≤ b := by
  rw [is_utf8_valid_cons] at hv
  simp only [Bool.and_eq_true] at hv
  have hhd := hv.1
  unfold utf8_head_valid at hhd
  split at hhd
  · exact absurd hhd (by simp)
  rename_i hg
  by_cases h1 : c < 0x80
  · rw [utf8_decode_cons_ascii c r h1] at hge
    exact absurd h1 (by simpa using hge)
  rw [if_neg h1] at hhd
  by_cases h2 : (c &&& 0xE0 == 0xC0) = true
  · rw [if_pos h2] at hhd
    rw [utf8_decode_cons_2 c r h1 h2]
    have hcl : utf8_char_length c = 2 := by
      unfold utf8_char_length
      rw [if_neg h1, if_pos h2]
    rw [hcl] at hg
    match r with
    | [] => simp at hg
    | b1 :: r2 =>
      simp only [Bool.and_eq_true] at hhd
      have hcont := utf8_cont_ge_128 _ hhd.1
      simp only [List.getD_cons_zero] at hcont
      intro b hb
      simp only [List.take_succ_cons, List.take_zero, List.mem_cons,
        List.not_mem_nil, or_false] at hb
      rcases hb with hb | hb
      · omega
      · omega
  rw [if_neg h2] at hhd
  by_cases h3 : (c &&& 0xF0 == 0xE0) = true
  · rw [if_pos h3] at hhd
    rw [utf8_decode_cons_3 c r h1 h2 h3]
    have hcl : utf8_char_length c = 3 := by
      unfold utf8_char_length
      rw [if_neg h1, if_neg h2, if_pos h3]
    rw [hcl] at hg
    match r with
    | [] => simp at hg
    | [b1] => simp at hg
    | b1 :: b2 :: r2 =>
      simp only [Bool.and_eq_true] at hhd
      have hc1 := utf8_cont_ge_128 _ hhd.1.1
      have hc2 := utf8_cont_ge_128 _ hhd.1.2
      simp only [List.getD_cons_zero, List.getD_cons_succ] at hc1 hc2
      intro b hb
      simp only [List.take_succ_cons, List.take_zero, List.mem_cons,
        List.not_mem_nil, or_false] at hb
      rcases hb with hb | hb | hb
      · omega
      · omega
      · omega
  rw [if_neg h3] at hhd
  by_cases h4 : (c &&& 0xF8 == 0xF0) = true
  · rw [if_pos h4] at hhd
    rw [utf8_decode_cons_4 c r h1 h2 h3 h4]
    have hcl : utf8_char_length c = 4 := by
      unfold utf8_char_length
      rw [if_neg h1, if_neg h2, if_neg h3, if_pos h4]
    rw [hcl] at hg
    match r with
    | [] => simp at hg
    | [b1] => simp at hg
    | [b1, b2] => simp at hg
    | b1 :: b2 :: b3 :: r2 =>
      simp only [Bool.and_eq_true] at hhd
      have hc1 := utf8_cont_ge_128 _ hhd.1.1.1
      have hc2 := utf8_cont_ge_128 _ hhd.1.1.2
      have hc3 := utf8_cont_ge_128 _ hhd.1.2
      simp only [List.getD_cons_zero, List.getD_cons_succ] at hc1 hc2 hc3
      intro b hb
      simp only [List.take_succ_cons, List.take_zero, List.mem_cons,
        List.not_mem_nil, or_false] at hb
      rcases hb with hb | hb | hb | hb
      · omega
      · omega
      · omega
      · omega
  rw [utf8_decode_cons_other c r h1 h2 h3 h4]
  intro b hb
  simp only [List.take_succ_cons, List.take_zero, List.mem_cons,
    List.not_mem_nil, or_false] at hb
  omega

theorem alnum_ne_sep (s cp : Nat) (hsal : c_isalnum s = false)
    (halnum : c_isalnum cp = true) : cp ≠ s := by
  intro h
  rw [h, hsal] at halnum
  simp at halnum

theorem alnum_tolower_ne_sep (s cp : Nat) (hsal : c_isalnum s = false)
    (halnum : c_isalnum cp = true) : c_tolower cp ≠ s := by
  intro h
  have h2 := c_isalnum_tolower cp halnum
  rw [h, hsal] at h2
  simp at h2

theorem slug_step_sep_ok (opts : slugify_options_t) (sz cp consumed : Nat)
    (cb out : List Nat)
    (hsal : c_isalnum opts.separator = false)
    (hfree : sep_free_of_table opts.separator = true)
    (hs128 : opts.separator < 128)
    (hcb : ¬ cp < 128 → ∀ b ∈ cb, 128 ≤ b)
    (hout : sep_ok opts.separator out) :
    ∀ code o, slug_step opts sz cp consumed cb out = (code, o) →
      sep_ok opts.separator o := by
  intro code o h
  unfold slug_step at h
  repeat' split at h
  all_goals (injection h with h1 h2; subst h2)
  all_goals try exact hout
  all_goals try
    (exact sep_ok_append_single _ _ _ hout (alnum_ne_sep _ cp hsal (by assumption)))
  all_goals try
    (exact sep_ok_append_single _ _ _ hout (alnum_tolower_ne_sep _ cp hsal (by assumption)))
  all_goals try
    (exact sep_ok_append _ _ _ hout
      (fun b hb => by have h3 := hcb (by assumption) b hb; omega))
  all_goals try
    (rename_i h4 hcond hcap;
     exact sep_ok_append_sep _ _ hout (List.length_pos.mp hcond.1) hcond.2)
  all_goals
    (rename_i tr heq hcap;
     exact trans_append_sep_ok opts out tr hout (trans_byte_ne_sep opts cp tr hsal hfree heq))

theorem slug_loop_sep_ok (opts : slugify_options_t) (sz : Nat)
    (hsal : c_isalnum opts.separator = false)
    (hfree : sep_free_of_table opts.separator = true)
    (hs128 : opts.separator < 128) :
    ∀ (fuel : Nat) (rest out : List Nat), is_utf8_valid rest = true →
      sep_ok opts.separator out →
      sep_ok opts.separator (slug_loop opts sz fuel rest out).2 := by
  intro fuel
  induction fuel with
  | zero => intro rest out _ hout; simpa [slug_loop] using hout
  | succ fuel ih =>
    intro rest out hv hout
    match rest with
    | [] => simpa [slug_loop] using hout
    | c :: r =>
      rw [slug_loop]
      split
      · split
        · exact hout
        · split
          · rename_i e o heq
            have hb := slug_step_basic opts sz _ _ _ out
              (by rw [List.length_take]; exact Nat.min_le_left _ _) _ _ heq
            rw [hb.2.1 (by simp)]
            exact hout
          · rename_i o heq
            exact ih _ o (is_utf8_valid_drop_decode c r hv)
              (slug_step_sep_ok opts sz _ _ _ out hsal hfree hs128
                (fun hge => valid_take_ge_128 c r hv hge) hout _ _ heq)
      · exact hout

theorem slug_trim_head (opts : slugify_options_t) (o : List Nat)
    (hh : o.head? ≠ some opts.separator) :
    (slug_trim opts o).head? ≠ some opts.separator := by
  unfold slug_trim
  split
  · match o with
    | [] => simp
    | [x] => simp
    | x :: y :: t =>
      simp only [List.dropLast_cons₂, List.head?_cons] at hh ⊢
      exact hh
  · exact hh

theorem slug_trim_last (opts : slugify_options_t) (o : List Nat)
    (hc : List.Chain' (fun a b => ¬(a = opts.separator ∧ b = opts.separator)) o) :
    (slug_trim opts o).getLast? ≠ some opts.separator := by
  unfold slug_trim
  split
  · rename_i htrim
    simp only [beq_iff_eq] at htrim
    intro hcontra
    have hdecomp : o.dropLast ++ [opts.separator] = o :=
      List.dropLast_append_getLast? opts.separator (by rw [Option.mem_def]; exact htrim)
    rw [← hdecomp, List.chain'_append] at hc
    obtain ⟨-, -, hb⟩ := hc
    exact hb opts.separator (by rw [Option.mem_def]; exact hcontra) opts.separator
      (by simp) ⟨rfl, rfl⟩
  · rename_i htrim
    simpa using htrim

/-- Claim C6 (amended): a successfully returned slug never begins with the
separator byte, provided the separator is not alphanumeric, is an ASCII byte,
and occurs in no transliteration replacement string; leading whitespace or
unmapped punctuation produces no leading separator.  (The default separator
45 occurs in the replacement for U+2013, which is how the counterexample
"–a" → "-a" arises.) -/
theorem c6_no_leading_separator (input : List Nat) (sz : Nat) (opts : slugify_options_t)
    (hsal : c_isalnum opts.separator = false)
    (hfree : sep_free_of_table opts.separator = true)
    (hs128 : opts.separator < 128) :
    (∀ out, slugify_ex input sz opts = .ok out → out.head? ≠ some opts.separator) ∧
    slugify [32, 32, 97] slugify_default_options = some [97] ∧
    slugify [33, 46, 97] slugify_default_options = some [97] := by
  refine ⟨?_, by decide, by decide⟩
  intro out hok
  obtain ⟨hv, hsz, o, hlp, hout, hne⟩ := slugify_ex_ok_inv input sz opts out hok
  have hsep := slug_loop_sep_ok opts sz hsal hfree hs128 input.length input [] hv
    ⟨by simp, List.chain'_nil⟩
  rw [hlp] at hsep
  rw [hout]
  exact slug_trim_head opts o hsep.1

theorem c6_no_leading_separator_witness :
    (c_isalnum ({ preserve_case := false, separator := 95, max_length := 0 } :
        slugify_options_t).separator = false ∧
     sep_free_of_table ({ preserve_case := false, separator := 95, max_length := 0 } :
        slugify_options_t).separator = true ∧
     ({ preserve_case := false, separator := 95, max_length := 0 } :
        slugify_options_t).separator < 128) ∧
    ((∀ out, slugify_ex [97, 32, 98] 4
        { preserve_case := false, separator := 95, max_length := 0 } = .ok out →
        out.head? ≠ some ({ preserve_case := false, separator := 95, max_length := 0 } :
          slugify_options_t).separator) ∧
     slugify [32, 32, 97] slugify_default_options = some [97] ∧
     slugify [33, 46, 97] slugify_default_options = some [97]) :=
  ⟨⟨by decide, by decide, by decide⟩,
   c6_no_leading_separator [97, 32, 98] 4
     { preserve_case := false, separator := 95, max_length := 0 }
     (by decide) (by decide) (by decide)⟩

/-- Claim C9 (amended): one trailing separator is removed after the scan, so a
successful slug never ends with the separator byte when the separator is
non-alphanumeric ASCII and occurs in no transliteration replacement (the
default 45 occurs in the U+2013 replacement, whence the counterexample
"a––" → "a-"); "hello!!" yields "hello"; and when the scan's output is empty
after the trailing-separator trim, the conversion fails with the
empty-result error, e.g. on input "^^". -/
theorem c9_trailing_separator_and_empty_error (input : List Nat) (sz : Nat)
    (opts : slugify_options_t)
    (hsal : c_isalnum opts.separator = false)
    (hfree : sep_free_of_table opts.separator = true)
    (hs128 : opts.separator < 128) :
    (∀ out, slugify_ex input sz opts = .ok out → out.getLast? ≠ some opts.separator) ∧
    (∀ o, is_utf8_valid input = true → sz ≠ 0 →
      slug_loop opts sz input.length input [] = (none, o) →
      slug_trim opts o = [] →
      slugify_ex input sz opts = .error SLUGIFY_ERROR_EMPTY) ∧
    slugify [104, 101, 108, 108, 111, 33, 33] slugify_default_options =
      some [104, 101, 108, 108, 111] ∧
    slugify [94, 94] slugify_default_options = none := by
  refine ⟨?_, ?_, by decide, by decide⟩
  · intro out hok
    obtain ⟨hv, hsz, o, hlp, hout, hne⟩ := slugify_ex_ok_inv input sz opts out hok
    have hsep := slug_loop_sep_ok opts sz hsal hfree hs128 input.length input [] hv
      ⟨by simp, List.chain'_nil⟩
    rw [hlp] at hsep
    rw [hout]
    exact slug_trim_last opts o hsep.2
  · intro o hv hsz hlp hempty
    unfold slugify_ex
    rw [if_neg (by simpa using hsz)]
    rw [if_neg (by simp [hv])]
    simp only [hlp, hempty]
    rfl

theorem c9_trailing_separator_witness :
    (c_isalnum ({ preserve_case := false, separator := 95, max_length := 0 } :
        slugify_options_t).separator = false ∧
     sep_free_of_table ({ preserve_case := false, separator := 95, max_length := 0 } :
        slugify_options_t).separator = true ∧
     ({ preserve_case := false, separator := 95, max_length := 0 } :
        slugify_options_t).separator < 128) ∧
    ((∀ out, slugify_ex [104, 101, 108, 108, 111, 33, 33] 8
        { preserve_case := false, separator := 95, max_length := 0 } = .ok out →
        out.getLast? ≠ some ({ preserve_case := false, separator := 95, max_length := 0 } :
          slugify_options_t).separator) ∧
     (∀ o, is_utf8_valid [104, 101, 108, 108, 111, 33, 33] = true → (8 : Nat) ≠ 0 →
        slug_loop { preserve_case := false, separator := 95, max_length := 0 } 8
          ([104, 101, 108, 108, 111, 33, 33] : List Nat).length
          [104, 101, 108, 108, 111, 33, 33] [] = (none, o) →
        slug_trim { preserve_case := false, separator := 95, max_length := 0 } o = [] →
        slugify_ex [104, 101, 108, 108, 111, 33, 33] 8
          { preserve_case := false, separator := 95, max_length := 0 } =
          .error SLUGIFY_ERROR_EMPTY) ∧
     slugify [104, 101, 108, 108, 111, 33, 33] slugify_default_options =
       some [104, 101, 108, 108, 111] ∧
     slugify [94, 94] slugify_default_options = none) :=
  ⟨⟨by decide, by decide, by decide⟩,
   c9_trailing_separator_and_empty_error [104, 101, 108, 108, 111, 33, 33] 8
     { preserve_case := false, separator := 95, max_length := 0 }
     (by decide) (by decide) (by decide)⟩

theorem is_lower_alnum_lt128 (b : Nat) (h : is_lower_alnum b = true) : b < 128 := by
  unfold is_lower_alnum at h
  simp only [decide_eq_true_eq] at h
  omega

theorem is_lower_alnum_isalnum (b : Nat) (h : is_lower_alnum b = true) :
    c_isalnum b = true := by
  unfold is_lower_alnum at h
  unfold c_isalnum
  simp only [decide_eq_true_eq] at h ⊢
  omega

theorem is_lower_alnum_tolower (b : Nat) (h : is_lower_alnum b = true) :
    c_tolower b = b := by
  unfold is_lower_alnum at h
  simp only [decide_eq_true_eq] at h
  unfold c_tolower
  rw [if_neg (by omega)]

theorem wf_rest_bytes (r : List Nat) :
    ∀ p, well_formed_rest p r = true → ∀ b ∈ r, (is_lower_alnum b || b == 45) = true := by
  induction r with
  | nil => intro p _ b hb; simp at hb
  | cons x t ih =>
    intro p h b hb
    rw [well_formed_rest] at h
    simp only [Bool.and_eq_true] at h
    rcases List.mem_cons.mp hb with hb | hb
    · subst hb
      rcases Bool.or_eq_true .. |>.mp h.1 with h2 | h2
      · simp [h2]
      · simp only [Bool.and_eq_true, beq_iff_eq] at h2
        simp [h2.1]
    · exact ih x h.2 b hb

theorem wf_slug_bytes (t : List Nat) (h : well_formed_slug t = true) :
    ∀ b ∈ t, (is_lower_alnum b || b == 45) = true := by
  match t with
  | [] => simp [well_formed_slug] at h
  | c :: r =>
    rw [well_formed_slug] at h
    simp only [Bool.and_eq_true] at h
    intro b hb
    rcases List.mem_cons.mp hb with hb | hb
    · subst hb; simp [h.1]
    · exact wf_rest_bytes r c h.2 b hb

theorem wf_rest_last (r : List Nat) :
    ∀ p, well_formed_rest p r = true → (p :: r).getLast? ≠ some 45 := by
  induction r with
  | nil =>
    intro p h
    rw [well_formed_rest] at h
    simp only [Bool.not_eq_true', beq_eq_false_iff_ne, ne_eq] at h
    simpa using h
  | cons x t ih =>
    intro p h
    rw [well_formed_rest] at h
    simp only [Bool.and_eq_true] at h
    rw [show (p :: x :: t).getLast? = (x :: t).getLast? from rfl]
    exact ih x h.2

theorem ascii_all_valid (l : List Nat) (hl : ∀ b ∈ l, b < 128) :
    is_utf8_valid l = true := by
  have H : ∀ (n : Nat) (l : List Nat), l.length ≤ n → (∀ b ∈ l, b < 128) →
      is_utf8_valid l = true := by
    intro n
    induction n with
    | zero =>
      intro l hn _
      match l with
      | [] => rfl
      | c :: r => simp at hn
    | succ n ih =>
      intro l hn hb
      match l with
      | [] => rfl
      | c :: r =>
        have hc : c < 128 := hb c (List.mem_cons_self c r)
        have hchk : ∀ x : Nat, x < 128 → utf8_checks 1 x = true := by decide
        rw [is_utf8_valid_cons]
        have hcl : utf8_char_length c = 1 := by
          unfold utf8_char_length
          rw [if_pos hc]
        rw [hcl]
        simp only [List.drop_succ_cons, List.drop_zero]
        rw [ih r (by simp at hn; omega) (fun b hbm => hb b (List.mem_cons_of_mem c hbm))]
        unfold utf8_head_valid
        rw [hcl, if_neg (by simp), if_pos hc, hchk c hc]
        rfl
  exact H l.length l (Nat.le_refl _) hl

theorem char_cost_wf_byte (opts : slugify_options_t) (b : Nat)
    (h : (is_lower_alnum b || b == 45) = true) : char_cost opts b 1 = 1 := by
  rcases Bool.or_eq_true .. |>.mp h with h2 | h2
  · unfold char_cost
    rw [if_pos (is_lower_alnum_lt128 b h2), if_pos (is_lower_alnum_isalnum b h2)]
  · simp only [beq_iff_eq] at h2
    subst h2
    unfold char_cost
    rw [if_pos (by omega), if_neg (by decide),
      show transliterate_char 45 = none from by decide, if_pos (by decide)]

theorem slugify_length_core_wf :
    ∀ (fuel : Nat) (l : List Nat) (opts : slugify_options_t), l.length ≤ fuel →
      (∀ b ∈ l, (is_lower_alnum b || b == 45) = true) →
      slugify_length_core opts fuel l = l.length := by
  intro fuel
  induction fuel with
  | zero =>
    intro l opts hn _
    match l with
    | [] => rfl
    | c :: r => simp at hn
  | succ fuel ih =>
    intro l opts hn hb
    match l with
    | [] => rfl
    | c :: r =>
      have hc := hb c (List.mem_cons_self c r)
      have hc128 : c < 128 := by
        rcases Bool.or_eq_true .. |>.mp hc with h2 | h2
        · exact is_lower_alnum_lt128 c h2
        · simp only [beq_iff_eq] at h2; omega
      rw [slugify_length_core, utf8_decode_cons_ascii c r hc128]
      simp only [List.drop_succ_cons, List.drop_zero]
      rw [char_cost_wf_byte opts c hc,
        ih r opts (by simp at hn; omega) (fun b hbm => hb b (List.mem_cons_of_mem c hbm))]
      simp only [List.length_cons]
      omega

theorem c8_step_alnum (sz c : Nat) (out : List Nat) (hc : is_lower_alnum c = true)
    (hcap : out.length + 1 < sz) :
    slug_step slugify_default_options sz c 1 [c] out = (none, out ++ [c]) := by
  unfold slug_step
  rw [if_pos (is_lower_alnum_lt128 c hc), if_pos (is_lower_alnum_isalnum c hc),
    if_neg (by omega)]
  rw [show slugify_default_options.preserve_case = false from rfl]
  simp only [Bool.false_eq_true, if_false]
  rw [is_lower_alnum_tolower c hc]

theorem c8_step_sep (sz : Nat) (out : List Nat) (p : Nat) (hp : out.getLast? = some p)
    (hp45 : p ≠ 45) (hcap : out.length + 1 < sz) :
    slug_step slugify_default_options sz 45 1 [45] out = (none, out ++ [45]) := by
  unfold slug_step
  rw [if_pos (by omega), if_neg (by decide),
    show transliterate_char 45 = none from by decide, if_pos (by decide)]
  rw [if_pos ?side]
  case side =>
    constructor
    · cases out with
      | nil => simp at hp
      | cons a t => simp
    · rw [show slugify_default_options.separator = 45 from rfl, hp]
      simp [hp45]
  rw [if_neg (by omega)]
  rw [show slugify_default_options.separator = 45 from rfl]

theorem c8_loop_wf :
    ∀ (fuel : Nat) (rest out : List Nat) (sz : Nat), rest.length ≤ fuel →
      sz = out.length + rest.length + 1 →
      ((out = [] ∧ well_formed_slug rest = true) ∨
       (∃ p, out.getLast? = some p ∧ well_formed_rest p rest = true)) →
      slug_loop slugify_default_options sz fuel rest out = (none, out ++ rest) := by
  intro fuel
  induction fuel with
  | zero =>
    intro rest out sz hf _ _
    match rest with
    | [] => simp [slug_loop]
    | c :: r => simp at hf
  | succ fuel ih =>
    intro rest out sz hf hsz hinv
    match rest with
    | [] => simp [slug_loop]
    | c :: r =>
      rw [slug_loop]
      rw [if_pos (by simp at hsz ⊢; omega)]
      rw [if_neg (by rw [show slugify_default_options.max_length = 0 from rfl]; simp)]
      have hbytes : ∀ b ∈ c :: r, (is_lower_alnum b || b == 45) = true := by
        rcases hinv with ⟨_, hwf⟩ | ⟨p, _, hwf⟩
        · exact wf_slug_bytes _ hwf
        · exact wf_rest_bytes _ p hwf
      have hc := hbytes c (List.mem_cons_self c r)
      have hc128 : c < 128 := by
        rcases Bool.or_eq_true .. |>.mp hc with h2 | h2
        · exact is_lower_alnum_lt128 c h2
        · simp only [beq_iff_eq] at h2; omega
      rw [utf8_decode_cons_ascii c r hc128]
      simp only [List.take_succ_cons, List.take_zero, List.drop_succ_cons, List.drop_zero]
      have hcap : out.length + 1 < sz := by simp at hsz; omega
      rcases Bool.or_eq_true .. |>.mp hc with hcal | hc45
      · -- alphanumeric byte: written unchanged
        have hwfr : well_formed_rest c r = true := by
          rcases hinv with ⟨_, hwf⟩ | ⟨p, _, hwf⟩
          · rw [well_formed_slug] at hwf
            exact (Bool.and_eq_true .. |>.mp hwf).2
          · rw [well_formed_rest] at hwf
            exact (Bool.and_eq_true .. |>.mp hwf).2
        rw [c8_step_alnum sz c out hcal hcap]
        show slug_loop slugify_default_options sz fuel r (out ++ [c]) = (none, out ++ c :: r)
        rw [ih r (out ++ [c]) sz (by simp at hf; omega)
          (by simp at hsz ⊢; omega)
          (Or.inr ⟨c, List.getLast?_concat out, hwfr⟩)]
        simp
      · -- separator byte 45: the previous byte exists and is not 45
        simp only [beq_iff_eq] at hc45
        subst hc45
        rcases hinv with ⟨_, hwf⟩ | ⟨p, hp, hwf⟩
        · rw [well_formed_slug] at hwf
          simp [is_lower_alnum] at hwf
        · rw [well_formed_rest] at hwf
          simp only [Bool.and_eq_true] at hwf
          have hp45 : p ≠ 45 := by
            rcases Bool.or_eq_true .. |>.mp hwf.1 with h2 | h2
            · simp [is_lower_alnum] at h2
            · simp only [Bool.and_eq_true, beq_iff_eq, Bool.not_eq_true',
                beq_eq_false_iff_ne, ne_eq] at h2
              exact h2.2
          rw [c8_step_sep sz out p hp hp45 hcap]
          show slug_loop slugify_default_options sz fuel r (out ++ [45]) = (none, out ++ 45 :: r)
          rw [ih r (out ++ [45]) sz (by simp at hf; omega)
            (by simp at hsz ⊢; omega)
            (Or.inr ⟨45, List.getLast?_concat out, hwf.2⟩)]
          simp

/-- Claim C8 (amended): slugification with default options is idempotent on
well-formed slugs: whenever the first pass's output t consists of nonempty
runs of lowercase ASCII alphanumerics joined by single interior separators,
the second pass returns t unchanged.  (Transliterations such as "…" → "...",
"©" → "(c)" or U+2013 → "-" can produce outputs outside this language, and
those need not be fixed points — see the counterexample.) -/
theorem c8_idempotent_on_well_formed (s t : List Nat)
    (h1 : slugify s slugify_default_options = some t)
    (h2 : well_formed_slug t = true) :
    slugify t slugify_default_options = some t := by
  have hbytes := wf_slug_bytes t h2
  have hb128 : ∀ b ∈ t, b < 128 := by
    intro b hb
    rcases Bool.or_eq_true .. |>.mp (hbytes b hb) with h3 | h3
    · exact is_lower_alnum_lt128 b h3
    · simp only [beq_iff_eq] at h3; omega
  have hvalid := ascii_all_valid t hb128
  have hlen : slugify_length t slugify_default_options = t.length + 1 := by
    unfold slugify_length
    rw [slugify_length_core_wf t.length t slugify_default_options (Nat.le_refl _) hbytes]
  have hloop := c8_loop_wf t.length t [] (t.length + 1) (Nat.le_refl _) (by simp) (Or.inl ⟨rfl, h2⟩)
  have hne : t ≠ [] := by
    intro h
    rw [h] at h2
    simp [well_formed_slug] at h2
  have hlast : t.getLast? ≠ some 45 := by
    match t with
    | [] => exact absurd rfl hne
    | c :: r =>
      rw [well_formed_slug] at h2
      exact wf_rest_last r c (Bool.and_eq_true .. |>.mp h2).2
  unfold slugify
  rw [hlen]
  unfold slugify_ex
  rw [if_neg (by simp)]
  rw [if_neg (by simp [hvalid])]
  simp only [List.nil_append] at hloop
  simp only [hloop]
  have htrim : slug_trim slugify_default_options t = t := by
    unfold slug_trim
    rw [if_neg (by rw [show slugify_default_options.separator = 45 from rfl]; simpa using hlast)]
  rw [htrim]
  rw [if_neg (by simpa using hne)]

theorem c8_idempotent_witness :
    (slugify [65, 98, 99, 32, 68, 101, 102] slugify_default_options =
       some [97, 98, 99, 45, 100, 101, 102] ∧
     well_formed_slug [97, 98, 99, 45, 100, 101, 102] = true) ∧
    slugify [97, 98, 99, 45, 100, 101, 102] slugify_default_options =
      some [97, 98, 99, 45, 100, 101, 102] :=
  ⟨⟨by decide, by decide⟩,
   c8_idempotent_on_well_formed [65, 98, 99, 32, 68, 101, 102]
     [97, 98, 99, 45, 100, 101, 102] (by decide) (by decide)⟩

/-- Claim C1 (code bug): the validator accepts a standalone continuation byte
(0x80) and a byte in 0xF8–0xFF (0xF8) as one-byte pseudo code points instead
of rejecting the input: utf8_char_length maps them to length 1 so the
validator's invalid-first-byte rejection is unreachable, and the conversion
succeeds ("A\x80" gives "a"; "A\xF8" even transliterates 0xF8 as if it were
U+00F8 and gives "ao") where the spec requires SLUGIFY_ERROR_INVALID with no
output. -/
theorem c1_invalid_lead_bytes_accepted :
    is_utf8_valid [0x41, 0x80] = true ∧
    slugify [0x41, 0x80] slugify_default_options = some [0x61] ∧
    is_utf8_valid [0x41, 0xF8] = true ∧
    slugify [0x41, 0xF8] slugify_default_options = some [0x61, 0x6F] :=
  ⟨by decide, by decide, by decide, by decide⟩

/-- Claim C5 (code bug): the transliteration table is not sorted ascending by
code point — entry 589 holds key 0xFDFC but entry 590 holds the smaller key
0xFDF5 — and consequently the binary search misses table keys: 0xFDF5 maps
to "laa" in the table yet transliterate_char returns none for it (0xFDFC is
still found). -/
theorem c5_table_unsorted_lookup_misses :
    keys_strictly_sorted (transliteration_table.map Prod.fst) = false ∧
    (table_entry 589).1 = 0xFDFC ∧ (table_entry 590).1 = 0xFDF5 ∧
    (0xFDF5, [108, 97, 97]) ∈ transliteration_table ∧
    transliterate_char 0xFDF5 = none ∧
    transliterate_char 0xFDFC = some [114, 105, 97, 108] :=
  ⟨by decide, by decide, by decide, by decide, by decide, by decide⟩

/-- Claim C2 (counterexample): the minimal encoding of c = 0x21 ("!") does
not convert successfully — the conversion fails with the empty-result
error — refuting the claim that for every c < 0x80 the minimal encoding
converts successfully. -/
theorem c2_minimal_encoding_counterexample :
    slugify [0x21] slugify_default_options = none ∧
    slugify_ex [0x21] (slugify_length [0x21] slugify_default_options)
      slugify_default_options = .error SLUGIFY_ERROR_EMPTY :=
  ⟨by decide, by rfl⟩

/-- Claim C3 (counterexample): the byte 0x80 standing alone is an invalid
sequence under the spec's UTF-8 rules (a continuation byte with no lead
byte), yet the input "ñ" ++ 0x80 ++ "A" passes validation — the validator
treats the stray byte as a 1-byte pseudo code point — and the conversion
succeeds, returning the partial slug "na" built from the content around the
invalid byte instead of failing entirely. -/
theorem c3_partial_slug_counterexample :
    is_utf8_valid [0xC3, 0xB1] = true ∧
    is_utf8_valid [0x41] = true ∧
    is_utf8_valid [0xC3, 0xB1, 0x80, 0x41] = true ∧
    slugify [0xC3, 0xB1, 0x80, 0x41] slugify_default_options = some [110, 97] :=
  ⟨by decide, by decide, by decide, by decide⟩

/-- Claim C6 (counterexample): U+2013 (en dash) transliterates to "-", the
default separator byte, and is written without the separator-collapsing
guard, so input "–a" successfully returns the slug "-a", which begins with
the separator. -/
theorem c6_leading_separator_counterexample :
    slugify [0xE2, 0x80, 0x93, 0x61] slugify_default_options = some [45, 97] ∧
    slugify_default_options.separator = 45 :=
  ⟨by decide, by decide⟩

/-- Claim C7 (counterexample): with preserve_case = true and max_length = 1,
input "ñ" (2 UTF-8 bytes) is copied verbatim, returning a 2-byte slug that
exceeds max_length. -/
theorem c7_max_length_counterexample :
    slugify [0xC3, 0xB1] { preserve_case := true, separator := 45, max_length := 1 } =
      some [195, 177] ∧ 1 < ([195, 177] : List Nat).length :=
  ⟨by decide, by decide⟩

/-- Claim C8 (counterexample): input "…" (U+2026) slugifies successfully to
"...", but re-slugifying "..." fails with no output, so convert∘convert
differs from convert on this input. -/
theorem c8_idempotence_counterexample :
    slugify [0xE2, 0x80, 0xA6] slugify_default_options = some [46, 46, 46] ∧
    slugify [46, 46, 46] slugify_default_options = none :=
  ⟨by decide, by decide⟩

/-- Claim C9 (counterexample): input "a––" (two en dashes) produces the
pre-trim output "a--"; only one trailing separator is removed, so the
returned slug "a-" ends with the separator byte. -/
theorem c9_trailing_separator_counterexample :
    slugify [97, 0xE2, 0x80, 0x93, 0xE2, 0x80, 0x93] slugify_default_options =
      some [97, 45] ∧
    slugify_default_options.separator = 45 :=
  ⟨by decide, by decide⟩
